import Mathlib

/-!
Verification development for the simulation-and-feedback engine of the
Ventry repository (rl-agent).

Each relevant Python module is embedded shallowly:

* floats are modelled as rationals (`ℚ`), Python ints as `ℤ`/`ℕ`,
  datetimes as integer day counts;
* every call to the random number generator (`np.random.*`, `random.*`)
  becomes an explicit oracle parameter, so theorems quantify over all
  possible draws;
* the transcendental `np.tanh`-based normal-CDF approximation of
  `enhanced_roi_calculator._normal_cdf` is kept as an abstract function
  parameter (its value is irrelevant to every claim, which only concern
  the clamping applied to the result);
* file I/O, logging and timestamps-of-record fields are dropped; all
  state-mutating logic is kept.
-/

/-- Truncation toward zero: the semantics of Python `int(x)` applied to a
float. -/
def ratTrunc (q : ℚ) : ℤ := if q < 0 then -(Int.floor (-q)) else Int.floor q

theorem ratTrunc_le_self {q : ℚ} (h : 0 ≤ q) : (ratTrunc q : ℚ) ≤ q := by
  unfold ratTrunc
  rw [if_neg (not_lt.mpr h)]
  exact Int.floor_le q

theorem ratTrunc_nonpos {q : ℚ} (h : q ≤ 0) : ratTrunc q ≤ 0 := by
  unfold ratTrunc
  rcases lt_or_eq_of_le h with h' | h'
  · rw [if_pos h']
    simp only [neg_nonpos]
    exact Int.le_floor.mpr (by push_cast; linarith)
  · subst h'; simp

theorem ratTrunc_pos_of_pos {q : ℚ} (h : 0 < ratTrunc q) : 0 < q := by
  by_contra hq
  exact absurd (ratTrunc_nonpos (not_lt.mp hq)) (not_le.mpr h)

/-- Generic preservation of a predicate along a left fold, where the step
function is only required to preserve the predicate for elements of the
list being folded. -/
theorem foldl_preserve {α β : Type} (P : β → Prop) (f : β → α → β) :
    ∀ (l : List α) (b : β), (∀ b a, a ∈ l → P b → P (f b a)) → P b → P (l.foldl f b)
  | [], _, _, hb => hb
  | a :: l, b, h, hb =>
    foldl_preserve P f l (f b a) (fun b' a' ha' => h b' a' (List.mem_cons_of_mem _ ha'))
      (h b a (List.mem_cons_self _ _) hb)

/-- Every element of `l.getD i []` belongs to some member list of `l`. -/
theorem mem_of_mem_getD_nil {α : Type} {l : List (List α)} {i : ℕ} {a : α}
    (h : a ∈ l.getD i []) : ∃ q ∈ l, a ∈ q := by
  rw [List.getD_eq_getElem?_getD] at h
  cases hg : l[i]? with
  | none => rw [hg] at h; simp at h
  | some q =>
    rw [hg] at h
    exact ⟨q, List.getElem?_mem hg, h⟩

/-- `l.getD i 0` is nonnegative when every member of `l` is. -/
theorem getD_zero_nonneg {l : List ℤ} {i : ℕ} (h : ∀ x ∈ l, 0 ≤ x) :
    0 ≤ l.getD i 0 := by
  rw [List.getD_eq_getElem?_getD]
  cases hg : l[i]? with
  | none => simp
  | some x => simpa using h x (List.getElem?_mem hg)

/-! ## Outcome tracking (`enhanced_outcome_tracking.py`)

The tracker owns a list of `OutcomeData` records and a list of
`EnhancedReward` records; both are embedded with their numeric fields.
Timestamps (`approved_at`, `tracking_start`, ...) become integer day
counts; the fields that the tracked operations never read
(`recommendation_id`, `product_id`, `product_name`) are dropped. -/

namespace Tracking

/-- `OutcomeData` from `enhanced_outcome_tracking.py`. -/
structure OutcomeData where
  task_id : String
  predicted_roi : ℚ
  predicted_profit : ℚ
  restock_quantity : ℤ
  restock_cost : ℚ
  actual_sales_before : ℚ := 0
  actual_sales_after : ℚ := 0
  actual_cost : ℚ := 0
  actual_roi : ℚ := 0
  actual_profit : ℚ := 0
  sell_through_rate : ℚ := 0
  tracking_start : Option ℤ := none
  tracking_end : Option ℤ := none
  outcome_captured_at : Option ℤ := none
  user_feedback : Option String := none
  user_satisfaction : Option ℚ := none
  feedback_collected_at : Option ℤ := none
  status : String := "tracking"
  deriving DecidableEq

/-- `EnhancedReward` from `enhanced_outcome_tracking.py`. -/
structure EnhancedReward where
  task_id : String
  base_reward : ℚ
  actual_roi_reward : ℚ
  user_feedback_bonus : ℚ
  accuracy_penalty : ℚ
  total_reward : ℚ
  confidence_score : ℚ
  created_at : ℤ
  deriving DecidableEq

/-- The mutable state of an `EnhancedOutcomeTracker`. -/
structure TrackerState where
  outcome_data : List OutcomeData
  enhanced_rewards : List EnhancedReward
  deriving DecidableEq

/-- The three normal draws made by `_capture_mock_outcome_data` (a fourth
draw feeds the dead local `base_accuracy`, which the source never uses). -/
structure CaptureNoise where
  acc_noise : ℚ
  sales_noise : ℚ
  after_noise : ℚ
  cost_noise : ℚ
  deriving DecidableEq

/-- `_should_capture_outcome`: capture once the tracking window elapsed;
a record without a `tracking_end` is never captured. -/
def should_capture_outcome (now : ℤ) (o : OutcomeData) : Bool :=
  match o.tracking_end with
  | none => false
  | some te => decide (te ≤ now)

/-- `_capture_mock_outcome_data`.  Returns `none` when the record has no
`tracking_start`: the source then raises a `TypeError` computing
`tracking_end - tracking_start` before any field is assigned, the
exception is caught and the record is left unchanged. -/
def capture_mock_outcome_data (now : ℤ) (ns : CaptureNoise) (o : OutcomeData) :
    Option OutcomeData :=
  match o.tracking_start, o.tracking_end with
  | some ts, some te =>
    let daily_sales_before : ℚ := 15 + ns.sales_noise
    let daily_sales_after : ℚ := daily_sales_before * (12/10 + ns.after_noise)
    let period_days : ℤ := te - ts
    let sales_before : ℚ := max 0 (daily_sales_before * ((period_days : ℚ) / 2))
    let sales_after : ℚ := max 0 (daily_sales_after * ((period_days : ℚ) / 2))
    let cost_variation : ℚ := 1 + ns.cost_noise
    let actual_cost : ℚ := o.restock_cost * cost_variation
    let revenue_per_unit : ℚ := 20
    let units_sold : ℚ := min (o.restock_quantity : ℚ) sales_after
    let total_revenue : ℚ := units_sold * revenue_per_unit
    let actual_profit : ℚ := total_revenue - actual_cost
    let actual_roi : ℚ := if 0 < actual_cost then actual_profit / actual_cost * 100 else 0
    let str_rate : ℚ :=
      if 0 < o.restock_quantity then units_sold / (o.restock_quantity : ℚ) * 100 else 0
    some { o with
      actual_sales_before := sales_before
      actual_sales_after := sales_after
      actual_cost := actual_cost
      actual_profit := actual_profit
      actual_roi := actual_roi
      sell_through_rate := str_rate
      status := "completed"
      outcome_captured_at := some now }
  | _, _ => none

/-- The loop body of `capture_business_outcomes`: walk the record list,
capturing every record still `tracking` whose window elapsed; `k` indexes
the oracle noise stream.  Returns the updated records and the capture
count. -/
def capture_loop (now : ℤ) (noise : ℕ → CaptureNoise) :
    List OutcomeData → ℕ → List OutcomeData × ℕ
  | [], _ => ([], 0)
  | o :: rest, k =>
    let tail := capture_loop now noise rest (k + 1)
    if o.status = "tracking" ∧ should_capture_outcome now o then
      match capture_mock_outcome_data now (noise k) o with
      | some o' => (o' :: tail.1, tail.2 + 1)
      | none => (o :: tail.1, tail.2)
    else (o :: tail.1, tail.2)

/-- `capture_business_outcomes` (mock mode). -/
def capture_business_outcomes (now : ℤ) (noise : ℕ → CaptureNoise)
    (s : TrackerState) : TrackerState × ℕ :=
  let r := capture_loop now noise s.outcome_data 0
  ({ s with outcome_data := r.1 }, r.2)

/-- `_calculate_roi_accuracy`. -/
def calculate_roi_accuracy (predicted actual : ℚ) : ℚ :=
  if predicted = 0 ∧ actual = 0 then 1
  else max 0 (1 - |predicted - actual| / max |predicted| (max |actual| 10))

/-- `_calculate_confidence_score` (outcome tracker version): unweighted
mean of the applicable factors. -/
def calculate_outcome_confidence (o : OutcomeData) : ℚ :=
  let f1 := calculate_roi_accuracy o.predicted_roi o.actual_roi
  let f2 : ℚ := if 80 ≤ o.sell_through_rate then 1
    else if 50 ≤ o.sell_through_rate then 7/10 else 3/10
  let satFactors : List ℚ :=
    match o.user_satisfaction with
    | some s => [(s - 1) / 4]
    | none => []
  let f4 : ℚ := if 0 < o.actual_profit then 1
    else if -50 < o.actual_profit then 1/2 else 0
  let fs : List ℚ := [f1, f2] ++ satFactors ++ [f4]
  fs.sum / (fs.length : ℚ)

/-- `_calculate_enhanced_reward`. -/
def calculate_enhanced_reward (now : ℤ) (o : OutcomeData) : EnhancedReward :=
  let base_reward := o.actual_profit / 100
  let roi_accuracy := calculate_roi_accuracy o.predicted_roi o.actual_roi
  let actual_roi_reward := o.actual_roi / 100 * roi_accuracy
  let user_feedback_bonus : ℚ :=
    match o.user_satisfaction with
    | some sat => (sat - 3) / 2 * (2/10)
    | none => 0
  let roi_error := |o.predicted_roi - o.actual_roi|
  let accuracy_penalty := -(min (roi_error / 100) (1/2))
  let total_reward := base_reward + actual_roi_reward + user_feedback_bonus + accuracy_penalty
  { task_id := o.task_id
    base_reward := base_reward
    actual_roi_reward := actual_roi_reward
    user_feedback_bonus := user_feedback_bonus
    accuracy_penalty := accuracy_penalty
    total_reward := total_reward
    confidence_score := calculate_outcome_confidence o
    created_at := now }

/-- Eligibility test of the `generate_enhanced_rewards` loop: completed and
actually captured (`outcome.outcome_captured_at` truthy). -/
def rewardEligible (o : OutcomeData) : Prop :=
  o.status = "completed" ∧ o.outcome_captured_at.isSome = true

instance (o : OutcomeData) : Decidable (rewardEligible o) := by
  unfold rewardEligible; infer_instance

/-- The loop of `generate_enhanced_rewards`: for each eligible record with
no reward yet (checked against the *live* reward list), append a freshly
computed reward.  Returns (new rewards, final reward list). -/
def generate_loop (now : ℤ) :
    List OutcomeData → List EnhancedReward → List EnhancedReward × List EnhancedReward
  | [], rs => ([], rs)
  | o :: rest, rs =>
    if rewardEligible o ∧ ∀ r ∈ rs, r.task_id ≠ o.task_id then
      let r := calculate_enhanced_reward now o
      let tail := generate_loop now rest (rs ++ [r])
      (r :: tail.1, tail.2)
    else generate_loop now rest rs

/-- `generate_enhanced_rewards`. -/
def generate_enhanced_rewards (now : ℤ) (s : TrackerState) :
    List EnhancedReward × TrackerState :=
  let r := generate_loop now s.outcome_data s.enhanced_rewards
  (r.1, { s with enhanced_rewards := r.2 })

/-- In-place update of the first record matching `task_id`, as performed by
`collect_user_feedback` through the object returned by `next(...)`. -/
def update_feedback (now : ℤ) (feedback : String) (satisfaction : ℚ) :
    List OutcomeData → String → List OutcomeData
  | [], _ => []
  | o :: rest, tid =>
    if o.task_id = tid then
      { o with
        user_feedback := some feedback
        user_satisfaction := some satisfaction
        feedback_collected_at := some now } :: rest
    else o :: update_feedback now feedback satisfaction rest tid

/-- `collect_user_feedback`: attach feedback to an existing record; when no
record carries the task id, log a warning and return `False` with the
state untouched. -/
def collect_user_feedback (now : ℤ) (s : TrackerState) (task_id feedback : String)
    (satisfaction : ℚ) : Bool × TrackerState :=
  if ∃ o ∈ s.outcome_data, o.task_id = task_id then
    (true, { s with outcome_data := update_feedback now feedback satisfaction s.outcome_data task_id })
  else (false, s)

/-- Completed outcomes, as selected by `get_training_data`. -/
def completedOutcomes (s : TrackerState) : List OutcomeData :=
  s.outcome_data.filter (fun o => o.status = "completed")

/-- `summary['average_roi_accuracy']` of `get_training_data` (`np.mean`,
with `0.0` for an empty list). -/
def averageRoiAccuracy (s : TrackerState) : ℚ :=
  let os := completedOutcomes s
  if os.isEmpty then 0
  else (os.map (fun o => calculate_roi_accuracy o.predicted_roi o.actual_roi)).sum / (os.length : ℚ)

/-- `summary['average_user_satisfaction']`: mean of the satisfactions that
exist, or `None` when no completed outcome has one. -/
def averageUserSatisfaction (s : TrackerState) : Option ℚ :=
  let sats := (completedOutcomes s).filterMap (fun o => o.user_satisfaction)
  if sats.isEmpty then none else some (sats.sum / (sats.length : ℚ))

/-- `summary['total_actual_profit']`. -/
def totalActualProfit (s : TrackerState) : ℚ :=
  ((completedOutcomes s).map (fun o => o.actual_profit)).sum

end Tracking

/-! ## Projected-ROI calculator (`enhanced_roi_calculator.py`)

`calculate_roi` reads a `ProductMetrics` record, the calculator's market
conditions and the current date.  Oracle parameters: `season` (the current
month's season), `marketMultiplier`
(`market_conditions['overall_demand_multiplier']`), `demandNoise` (the
`np.random.normal(0, demand_volatility)` draw), `dataAgeDays`
(`(datetime.now() - last_updated).days`), and `ncdf` (the tanh-based
`_normal_cdf` approximation, abstract because it is transcendental). -/

namespace Roi

inductive SeasonType | spring | summer | fall | winter
  deriving DecidableEq

/-- The fields of `ProductMetrics` that `calculate_roi` reads. -/
structure ProductMetrics where
  cost_per_unit : ℚ
  selling_price : ℚ
  avg_daily_sales : ℚ
  sales_velocity_trend : ℚ
  seasonal_factors : SeasonType → ℚ
  current_inventory : ℤ
  reorder_point : ℤ
  historical_sell_through_rate : ℚ
  stockout_probability : ℚ
  demand_volatility : ℚ

/-- `_get_seasonal_factor` (the month-to-season mapping is folded into the
oracle `season` argument). -/
def get_seasonal_factor (pm : ProductMetrics) (season : SeasonType) : ℚ :=
  pm.seasonal_factors season

/-- `_calculate_projected_demand`. -/
def calculate_projected_demand (marketMultiplier : ℚ) (season : SeasonType)
    (demandNoise : ℚ) (pm : ProductMetrics) (time_window_days : ℤ) : ℚ :=
  let base_demand := pm.avg_daily_sales * (time_window_days : ℚ)
  let seasonal_factor := get_seasonal_factor pm season
  let market_factor := marketMultiplier
  let trend_factor := 1 + pm.sales_velocity_trend * (1/10)
  let volatility_factor := 1 + demandNoise
  max 0 (base_demand * seasonal_factor * market_factor * trend_factor * volatility_factor)

/-- `_calculate_sell_through_rate`. -/
def calculate_sell_through_rate (pm : ProductMetrics) (restock_quantity : ℤ)
    (projected_demand : ℚ) : ℚ :=
  let base_rate := pm.historical_sell_through_rate
  let demandOverQty := projected_demand / ((max restock_quantity 1 : ℤ) : ℚ)
  let adjusted_rate :=
    if 1 ≤ demandOverQty then min (98/100) (base_rate * (11/10))
    else if 7/10 ≤ demandOverQty then base_rate
    else base_rate * (8/10)
  let inventory_factor : ℚ :=
    if pm.current_inventory < pm.reorder_point then 105/100 else 1
  min (98/100) (max (3/10) (adjusted_rate * inventory_factor))

/-- `_calculate_stockout_probability`; `ncdf` stands for `_normal_cdf`. -/
def calculate_stockout_probability (ncdf : ℚ → ℚ) (pm : ProductMetrics)
    (restock_quantity time_window_days : ℤ) : ℚ :=
  let total_inventory : ℚ := (pm.current_inventory : ℚ) + (restock_quantity : ℚ)
  let expected_demand := pm.avg_daily_sales * (time_window_days : ℚ)
  let demand_std := expected_demand * pm.demand_volatility
  let stockout_prob :=
    if 0 < demand_std then 1 - ncdf ((total_inventory - expected_demand) / demand_std)
    else if total_inventory < expected_demand then 1 else 0
  min (95/100) (max (1/100) stockout_prob)

/-- `_calculate_confidence_score`: unweighted mean (`np.mean`) of the five
factors.  The `sell_through_rate` argument exists in the source but is
never read by the body. -/
def calculate_confidence_score (dataAgeDays : ℤ) (pm : ProductMetrics)
    (projected_demand _sell_through_rate : ℚ) : ℚ :=
  let data_quality := max (1/2) (1 - (dataAgeDays : ℚ) / 30)
  let demand_predictability := 1 - pm.demand_volatility
  let historical_accuracy := pm.historical_sell_through_rate
  let market_stability : ℚ := 8/10
  let inventory_adequacy :=
    min 1 ((pm.current_inventory : ℚ) / max (projected_demand * (1/10)) 1)
  (data_quality + demand_predictability + historical_accuracy +
    market_stability + inventory_adequacy) / 5

/-- `_calculate_time_to_stockout`. -/
def calculate_time_to_stockout (pm : ProductMetrics) (restock_quantity : ℤ) : ℚ :=
  let total_inventory : ℚ := (pm.current_inventory : ℚ) + (restock_quantity : ℚ)
  if pm.avg_daily_sales ≤ 0 then 999 else total_inventory / pm.avg_daily_sales

/-- The numeric fields of `ROICalculationResult`. -/
structure ROICalculationResult where
  restock_quantity : ℤ
  total_restock_cost : ℚ
  cost_per_unit : ℚ
  projected_units_sold : ℤ
  expected_revenue : ℚ
  selling_price_per_unit : ℚ
  expected_profit : ℚ
  projected_roi : ℚ
  sell_through_rate : ℚ
  stockout_probability : ℚ
  confidence_score : ℚ
  time_to_stockout_days : ℚ

/-- `calculate_roi`. -/
def calculate_roi (ncdf : ℚ → ℚ) (marketMultiplier : ℚ) (season : SeasonType)
    (demandNoise : ℚ) (dataAgeDays : ℤ) (pm : ProductMetrics)
    (restock_quantity time_window_days : ℤ) : ROICalculationResult :=
  let total_restock_cost : ℚ := (restock_quantity : ℚ) * pm.cost_per_unit
  let projected_demand :=
    calculate_projected_demand marketMultiplier season demandNoise pm time_window_days
  let sell_through_rate := calculate_sell_through_rate pm restock_quantity projected_demand
  let projected_units_sold : ℤ :=
    min restock_quantity (ratTrunc (projected_demand * sell_through_rate))
  let expected_revenue : ℚ := (projected_units_sold : ℚ) * pm.selling_price
  let expected_profit := expected_revenue - total_restock_cost
  let projected_roi : ℚ :=
    if 0 < total_restock_cost then expected_profit / total_restock_cost * 100 else 0
  { restock_quantity := restock_quantity
    total_restock_cost := total_restock_cost
    cost_per_unit := pm.cost_per_unit
    projected_units_sold := projected_units_sold
    expected_revenue := expected_revenue
    selling_price_per_unit := pm.selling_price
    expected_profit := expected_profit
    projected_roi := projected_roi
    sell_through_rate := sell_through_rate
    stockout_probability :=
      calculate_stockout_probability ncdf pm restock_quantity time_window_days
    confidence_score :=
      calculate_confidence_score dataAgeDays pm projected_demand sell_through_rate
    time_to_stockout_days := calculate_time_to_stockout pm restock_quantity }

end Roi

/-! ## Curriculum stages (`enhanced_training.py`) -/

namespace Curriculum

/-- `CurriculumStage` from `enhanced_training.py`. -/
structure CurriculumStage where
  name : String
  timesteps : ℤ
  business_complexity : ℚ
  market_volatility : ℚ
  demand_uncertainty : ℚ
  supplier_reliability : ℚ
  cash_flow_pressure : ℚ
  description : String
  deriving DecidableEq

instance : Inhabited CurriculumStage :=
  ⟨⟨"", 0, 0, 0, 0, 0, 0, ""⟩⟩

/-- `EnhancedTrainingSystem.create_curriculum_stages`: four stages, each
budgeted `total_timesteps // 4` (Python floor division). -/
def create_curriculum_stages (total_timesteps : ℤ) : List CurriculumStage :=
  [ { name := "Basic Operations"
      timesteps := Int.fdiv total_timesteps 4
      business_complexity := 3/10
      market_volatility := 2/10
      demand_uncertainty := 2/10
      supplier_reliability := 9/10
      cash_flow_pressure := 2/10
      description := "Basic inventory management with stable conditions" },
    { name := "Market Dynamics"
      timesteps := Int.fdiv total_timesteps 4
      business_complexity := 5/10
      market_volatility := 5/10
      demand_uncertainty := 4/10
      supplier_reliability := 8/10
      cash_flow_pressure := 4/10
      description := "Introduce market volatility and demand fluctuations" },
    { name := "Supply Chain Challenges"
      timesteps := Int.fdiv total_timesteps 4
      business_complexity := 7/10
      market_volatility := 6/10
      demand_uncertainty := 6/10
      supplier_reliability := 6/10
      cash_flow_pressure := 6/10
      description := "Add supplier delays and cash flow constraints" },
    { name := "Advanced Business Operations"
      timesteps := Int.fdiv total_timesteps 4
      business_complexity := 1
      market_volatility := 8/10
      demand_uncertainty := 8/10
      supplier_reliability := 5/10
      cash_flow_pressure := 8/10
      description := "Full complexity with all business challenges" } ]

end Curriculum

/-! ## Retraining trigger (`enhanced_rl_training.py`)

`should_retrain` consumes `get_training_data()` of the outcome tracker
plus the system's own `training_metrics` list.  A training-metrics entry
is modelled by the timestamp (integer day count) parsed from its
`model_version` field, which is all `should_retrain` reads. -/

namespace Retrain

open Tracking

/-- The state of an `EnhancedRLTrainingSystem` that `should_retrain`
reads. -/
structure RetrainSystem where
  tracker : TrackerState
  retraining_threshold : ℕ
  training_metrics : List ℤ
  deriving DecidableEq

/-- Condition (c): satisfaction data exists and the mean is below 3. -/
def satisfactionBad (s : Option ℚ) : Bool :=
  match s with
  | some v => decide (v < 3)
  | none => false

/-- Condition (e): a last training event exists and lies more than 7 days
in the past. -/
def scheduledDue (now : ℤ) (sys : RetrainSystem) : Bool :=
  match sys.training_metrics.getLast? with
  | some t => decide (7 < now - t)
  | none => false

/-- `should_retrain`, translated clause by clause from the source. -/
def should_retrain (now : ℤ) (sys : RetrainSystem) : Bool × String :=
  let outcomes := completedOutcomes sys.tracker
  if outcomes.length < sys.retraining_threshold then
    (false, "insufficient_outcomes")
  else if averageRoiAccuracy sys.tracker < 6/10 then
    (true, "poor_accuracy")
  else if satisfactionBad (averageUserSatisfaction sys.tracker) then
    (true, "poor_user_satisfaction")
  else if totalActualProfit sys.tracker < -1000 then
    (true, "significant_losses")
  else if scheduledDue now sys then
    (true, "scheduled_retraining")
  else
    (false, "no_retraining_needed")

/-- The retrain decision as the spec words it: an ordered list of
conditions, evaluated in order, the first satisfied one giving the
decision and the reported reason.  (Stated from the spec, to be compared
with `should_retrain`.) -/
def should_retrain_spec (now : ℤ) (sys : RetrainSystem) : Bool × String :=
  let conditions : List (Bool × Bool × String) :=
    [ (decide ((completedOutcomes sys.tracker).length < sys.retraining_threshold),
        false, "insufficient_outcomes"),
      (decide (averageRoiAccuracy sys.tracker < 6/10), true, "poor_accuracy"),
      (satisfactionBad (averageUserSatisfaction sys.tracker), true, "poor_user_satisfaction"),
      (decide (totalActualProfit sys.tracker < -1000), true, "significant_losses"),
      (scheduledDue now sys, true, "scheduled_retraining") ]
  match conditions.find? (fun c => c.1) with
  | some c => c.2
  | none => (false, "no_retraining_needed")

end Retrain

/-! ## Business simulator (`enhanced_business_env.py`)

`EnhancedBusinessEnv.step` is decomposed exactly as in the source:
supplier deliveries, restock actions, business (marketing) actions, daily
operations, state update.  Oracle parameters: the per-product demand
variance draws (`np.random.normal(1.0, 0.15)`), supplied as a stream
`variances : ℕ → ℚ`, and the initial-state draws of
`_create_business_state`.  The reward computation
(`_calculate_enhanced_reward`) and the episode action log
(`_record_action`) read the state but never mutate it and are not
modelled; the episode-day counter lives outside `business_state` and is
likewise omitted. -/

namespace Env

inductive MarketCondition | recession | slow | normal | growth | boom
  deriving DecidableEq

inductive SeasonType | winter | spring | summer | fall
  deriving DecidableEq

/-- `ProductInfo` from `enhanced_business_env.py`. -/
structure ProductInfo where
  cost_price : ℚ
  selling_price : ℚ
  storage_cost_per_unit : ℚ
  base_demand : ℚ
  seasonality_factor : SeasonType → ℚ
  lead_time : ℤ

instance : Inhabited ProductInfo :=
  ⟨⟨0, 0, 0, 0, fun _ => 0, 0⟩⟩

/-- A pending supplier order (one entry of `pending_orders[product_idx]`). -/
structure PendingOrder where
  quantity : ℤ
  days_remaining : ℤ
  cost : ℚ
  deriving DecidableEq

/-- The mutable `business_state` dictionary.  `accounts_receivable`,
`accounts_payable` and `supplier_relationships` are set at reset and never
read or written by `step`, and are omitted. -/
structure BState where
  inventory_levels : List ℤ
  days_since_restock : List ℤ
  cash_flow : ℚ
  customer_satisfaction : ℚ
  market_condition : MarketCondition
  season : SeasonType
  demand_trends : List ℚ
  monthly_revenue : ℚ
  monthly_costs : ℚ
  inventory_turnover : ℚ
  pending_orders : List (List PendingOrder)
  stockout_days : List ℤ
  total_profit : ℚ
  deriving DecidableEq

/-- `_get_market_factor`. -/
def get_market_factor : MarketCondition → ℚ
  | MarketCondition.recession => 6/10
  | MarketCondition.slow => 8/10
  | MarketCondition.normal => 1
  | MarketCondition.growth => 12/10
  | MarketCondition.boom => 3/2

/-- `_create_business_state`: the `random.*` draws appear as parameters;
`n` is the number of products. -/
def create_business_state (n : ℕ) (invs daysSince : List ℤ) (cash sat : ℚ)
    (mc : MarketCondition) (sn : SeasonType) (trends : List ℚ) : BState :=
  { inventory_levels := invs
    days_since_restock := daysSince
    cash_flow := cash
    customer_satisfaction := sat
    market_condition := mc
    season := sn
    demand_trends := trends
    monthly_revenue := 0
    monthly_costs := 0
    inventory_turnover := 0
    pending_orders := List.replicate n []
    stockout_days := List.replicate n 0
    total_profit := 0 }

/-- Inner loop of `_process_supplier_deliveries` for one product: decrement
every order's remaining days, merging arrived orders into the inventory
and keeping the rest in queue order. -/
def process_orders (inv : ℤ) (orders : List PendingOrder) : ℤ × List PendingOrder :=
  orders.foldl
    (fun acc o =>
      let o' : PendingOrder := { o with days_remaining := o.days_remaining - 1 }
      if o'.days_remaining ≤ 0 then (acc.1 + o'.quantity, acc.2)
      else (acc.1, acc.2 ++ [o']))
    (inv, [])

/-- The body of the `_process_supplier_deliveries` loop for one product
index. -/
def delivery_step (s : BState) (i : ℕ) : BState :=
  let r := process_orders (s.inventory_levels.getD i 0) (s.pending_orders.getD i [])
  { s with
    inventory_levels := s.inventory_levels.set i r.1
    pending_orders := s.pending_orders.set i r.2 }

/-- `_process_supplier_deliveries`: iterate over all product indices. -/
def process_supplier_deliveries (n : ℕ) (s : BState) : BState :=
  (List.range n).foldl delivery_step s

/-- The restock tier table of `_execute_restock_action`. -/
def restock_quantity_of (action_type : ℕ) : ℤ :=
  if action_type = 1 then 50
  else if action_type = 2 then 100
  else if action_type = 3 then 200
  else 0

/-- `_execute_restock_action` for product index `i`: cap the cost to the
available cash (shrinking the quantity via Python `int()`), enqueue a
pending order with the product's lead time and deduct the cash, provided
a positive quantity remains.  Returns the (possibly recomputed) cost, as
the source does. -/
def execute_restock_action (p : ProductInfo) (action_type : ℕ) (i : ℕ) (s : BState) :
    BState × ℚ :=
  if action_type = 1 ∨ action_type = 2 ∨ action_type = 3 then
    let quantity := restock_quantity_of action_type
    let cost : ℚ := (quantity : ℚ) * p.cost_price
    let qc : ℤ × ℚ :=
      if s.cash_flow < cost then
        let q := ratTrunc (s.cash_flow / p.cost_price)
        (q, (q : ℚ) * p.cost_price)
      else (quantity, cost)
    if 0 < qc.1 then
      ({ s with
          pending_orders := s.pending_orders.set i
            ((s.pending_orders.getD i []) ++ [⟨qc.1, p.lead_time, qc.2⟩])
          cash_flow := s.cash_flow - qc.2
          days_since_restock := s.days_since_restock.set i 0 }, qc.2)
    else (s, qc.2)
  else (s, 0)

/-- The restocking loop of `step`: execute a restock action for every
product whose action code is positive, accumulating the returned costs. -/
def execute_restocks (products : List ProductInfo) (acts : ℕ → ℕ) (s : BState) :
    BState × ℚ :=
  (List.range products.length).foldl
    (fun acc i =>
      if 0 < acts i then
        let r := execute_restock_action (products.getD i default) (acts i) i acc.1
        (r.1, acc.2 + r.2)
      else acc)
    (s, 0)

/-- `_execute_business_actions`: only `business_actions[0]` (marketing) has
an effect. -/
def execute_business_actions (marketing_action : ℕ) (s : BState) : BState :=
  if marketing_action = 1 then
    if 1000 ≤ s.cash_flow then
      { s with
        cash_flow := s.cash_flow - 1000
        demand_trends := s.demand_trends.map (fun t => t * (11/10)) }
    else s
  else if marketing_action = 2 then
    if 2500 ≤ s.cash_flow then
      { s with
        cash_flow := s.cash_flow - 2500
        demand_trends := s.demand_trends.map (fun t => t * (12/10)) }
    else s
  else s

/-- Accumulators of the `_simulate_daily_operations` loop. -/
structure DayAcc where
  s : BState
  revenue : ℚ
  costs : ℚ
  units : ℤ
  stockouts : ℕ

/-- One iteration of the `_simulate_daily_operations` per-product loop. -/
def simulate_product_day (products : List ProductInfo) (variances : ℕ → ℚ)
    (acc : DayAcc) (i : ℕ) : DayAcc :=
  let p := products.getD i default
  let seasonal_factor := p.seasonality_factor acc.s.season
  let market_factor := get_market_factor acc.s.market_condition
  let trend_factor := acc.s.demand_trends.getD i 0
  let demand_variance := variances i
  let daily_demand : ℤ :=
    max 0 (ratTrunc (p.base_demand * seasonal_factor * market_factor * trend_factor *
      demand_variance))
  let current_inventory := acc.s.inventory_levels.getD i 0
  let units_sold := min daily_demand current_inventory
  let product_revenue : ℚ := (units_sold : ℚ) * p.selling_price
  let storage_cost : ℚ := (current_inventory : ℚ) * p.storage_cost_per_unit
  let isStockout := units_sold < daily_demand ∧ current_inventory = 0
  { s := { acc.s with
      inventory_levels := acc.s.inventory_levels.set i (current_inventory - units_sold)
      days_since_restock :=
        acc.s.days_since_restock.set i (acc.s.days_since_restock.getD i 0 + 1)
      stockout_days :=
        if isStockout then acc.s.stockout_days.set i (acc.s.stockout_days.getD i 0 + 1)
        else acc.s.stockout_days
      customer_satisfaction :=
        if isStockout then acc.s.customer_satisfaction * (98/100)
        else acc.s.customer_satisfaction }
    revenue := acc.revenue + product_revenue
    costs := acc.costs + storage_cost
    units := acc.units + units_sold
    stockouts := acc.stockouts + (if isStockout then 1 else 0) }

/-- The daily-results dictionary returned by `_simulate_daily_operations`. -/
structure DailyResults where
  daily_revenue : ℚ
  daily_costs : ℚ
  daily_profit : ℚ
  daily_units_sold : ℤ
  stockouts : ℕ
  demand_fulfillment_rate : ℚ
  deriving DecidableEq

/-- `_simulate_daily_operations`. -/
def simulate_daily_operations (products : List ProductInfo) (variances : ℕ → ℚ)
    (s : BState) : BState × DailyResults :=
  let acc := (List.range products.length).foldl
    (simulate_product_day products variances) ⟨s, 0, 0, 0, 0⟩
  let s' :=
    if acc.stockouts = 0 then
      { acc.s with
        customer_satisfaction := min 1 (acc.s.customer_satisfaction * (1001/1000)) }
    else acc.s
  (s', { daily_revenue := acc.revenue
         daily_costs := acc.costs
         daily_profit := acc.revenue - acc.costs
         daily_units_sold := acc.units
         stockouts := acc.stockouts
         demand_fulfillment_rate :=
           (acc.units : ℚ) / max ((products.map (fun p => p.base_demand)).sum) 1 })

/-- The inventory value `sum(inventory_levels[i] * cost_price[i])` used by
`_update_business_state`. -/
def inventory_value (products : List ProductInfo) (s : BState) : ℚ :=
  ((List.range products.length).map
    (fun i => (s.inventory_levels.getD i 0 : ℚ) * (products.getD i default).cost_price)).sum

/-- `_update_business_state`. -/
def update_business_state (products : List ProductInfo) (daily : DailyResults)
    (s : BState) : BState :=
  let s := { s with
    monthly_revenue := s.monthly_revenue + daily.daily_revenue
    monthly_costs := s.monthly_costs + daily.daily_costs
    total_profit := s.total_profit + daily.daily_profit
    cash_flow := s.cash_flow + daily.daily_profit }
  if 0 < s.monthly_costs then
    let avg_inventory_value := inventory_value products s
    if 0 < avg_inventory_value then
      { s with inventory_turnover := s.monthly_costs / avg_inventory_value }
    else s
  else s

/-- The per-step inputs: the per-product action codes of the
`MultiDiscrete` action, the marketing component of the business actions,
and the oracle demand-variance draws of the day. -/
structure StepInput where
  pActions : ℕ → ℕ
  marketing_action : ℕ
  variances : ℕ → ℚ

/-- `step`, excluding the reward value and the episode log. -/
def step (products : List ProductInfo) (inp : StepInput) (s : BState) : BState :=
  let s1 := process_supplier_deliveries products.length s
  let s2 := (execute_restocks products inp.pActions s1).1
  let s3 := execute_business_actions inp.marketing_action s2
  let r := simulate_daily_operations products inp.variances s3
  update_business_state products r.2 r.1

/-- A run of the simulator: fold `step` over a list of step inputs. -/
def runSteps (products : List ProductInfo) (inputs : List StepInput) (s : BState) : BState :=
  inputs.foldl (fun s inp => step products inp s) s

end Env

/-! ## Claims about the ROI calculator (C1, C3) -/

namespace Roi

/-- A clamped value `min b (max a x)` lies in `[a, b]` whenever `a ≤ b`. -/
theorem clamp_between {a b x : ℚ} (h : a ≤ b) :
    a ≤ min b (max a x) ∧ min b (max a x) ≤ b :=
  ⟨le_min h (le_max_left a x), min_le_left b _⟩

/-- `_calculate_sell_through_rate` always lands in `[0.3, 0.98]`. -/
theorem sell_through_rate_in_range (pm : ProductMetrics) (qty : ℤ) (pd : ℚ) :
    3/10 ≤ calculate_sell_through_rate pm qty pd ∧
    calculate_sell_through_rate pm qty pd ≤ 98/100 := by
  simp only [calculate_sell_through_rate]
  exact clamp_between (by norm_num)

/-- `_calculate_stockout_probability` always lands in `[0.01, 0.95]`. -/
theorem stockout_probability_in_range (ncdf : ℚ → ℚ) (pm : ProductMetrics)
    (qty window : ℤ) :
    1/100 ≤ calculate_stockout_probability ncdf pm qty window ∧
    calculate_stockout_probability ncdf pm qty window ≤ 95/100 := by
  simp only [calculate_stockout_probability]
  exact clamp_between (by norm_num)

/-- `_calculate_confidence_score` lies in `[0, 1]` provided the metrics
fields are themselves in their documented ranges and the data age is
nonnegative. -/
theorem confidence_score_in_range (age : ℤ) (pm : ProductMetrics) (pd str : ℚ)
    (hage : 0 ≤ age) (hv0 : 0 ≤ pm.demand_volatility) (hv1 : pm.demand_volatility ≤ 1)
    (hh0 : 0 ≤ pm.historical_sell_through_rate)
    (hh1 : pm.historical_sell_through_rate ≤ 1)
    (hinv : 0 ≤ pm.current_inventory) :
    0 ≤ calculate_confidence_score age pm pd str ∧
    calculate_confidence_score age pm pd str ≤ 1 := by
  simp only [calculate_confidence_score]
  have h1a : (1/2 : ℚ) ≤ max (1/2) (1 - (age : ℚ)/30) := le_max_left _ _
  have h1b : max (1/2 : ℚ) (1 - (age : ℚ)/30) ≤ 1 := by
    apply max_le (by norm_num)
    have hq : (0 : ℚ) ≤ (age : ℚ)/30 := by
      apply div_nonneg _ (by norm_num)
      exact_mod_cast hage
    linarith
  have h5a : (0 : ℚ) ≤ min 1 ((pm.current_inventory : ℚ) / max (pd * (1/10)) 1) := by
    apply le_min (by norm_num)
    apply div_nonneg
    · exact_mod_cast hinv
    · exact le_trans (by norm_num) (le_max_right (pd * (1/10)) 1)
  have h5b : min (1 : ℚ) ((pm.current_inventory : ℚ) / max (pd * (1/10)) 1) ≤ 1 :=
    min_le_left _ _
  constructor
  · apply div_nonneg _ (by norm_num)
    linarith
  · rw [div_le_one (by norm_num)]
    linarith

/-- C1: for every `calculate_roi` result, when the returned
`total_restock_cost` is strictly positive the returned `projected_roi`
equals exactly `(expected_revenue - total_restock_cost) /
total_restock_cost * 100` over the fields of the same result, and when
`total_restock_cost` is zero the returned `projected_roi` is `0`. -/
theorem projected_roi_consistency (ncdf : ℚ → ℚ) (mm : ℚ) (season : SeasonType)
    (noise : ℚ) (age : ℤ) (pm : ProductMetrics) (qty window : ℤ)
    (r : ROICalculationResult)
    (hr : r = calculate_roi ncdf mm season noise age pm qty window) :
    (0 < r.total_restock_cost →
      r.projected_roi =
        (r.expected_revenue - r.total_restock_cost) / r.total_restock_cost * 100) ∧
    (r.total_restock_cost = 0 → r.projected_roi = 0) := by
  subst hr
  simp only [calculate_roi]
  constructor
  · intro h
    rw [if_pos h]
  · intro h
    rw [if_neg (by rw [h]; exact lt_irrefl 0)]

/-- Sample product metrics used to instantiate the ROI-calculator claims
(cost \$25, price \$50, 10 average daily sales, 60% historical
sell-through). -/
def samplePM : ProductMetrics :=
  { cost_per_unit := 25
    selling_price := 50
    avg_daily_sales := 10
    sales_velocity_trend := 0
    seasonal_factors := fun _ => 1
    current_inventory := 50
    reorder_point := 70
    historical_sell_through_rate := 6/10
    stockout_probability := 1/10
    demand_volatility := 2/10 }

/-- Witness for C1 at a concrete input with cost `100 × $25 = $2500 > 0`. -/
theorem projected_roi_consistency_witness :
    0 < (calculate_roi (fun _ => 1/2) 1 SeasonType.spring 0 0 samplePM 100 30).total_restock_cost ∧
    (calculate_roi (fun _ => 1/2) 1 SeasonType.spring 0 0 samplePM 100 30).projected_roi =
      ((calculate_roi (fun _ => 1/2) 1 SeasonType.spring 0 0 samplePM 100 30).expected_revenue -
        (calculate_roi (fun _ => 1/2) 1 SeasonType.spring 0 0 samplePM 100 30).total_restock_cost) /
        (calculate_roi (fun _ => 1/2) 1 SeasonType.spring 0 0 samplePM 100 30).total_restock_cost * 100 := by
  have h : 0 < (calculate_roi (fun _ => 1/2) 1 SeasonType.spring 0 0 samplePM 100 30).total_restock_cost := by
    norm_num [calculate_roi, samplePM]
  exact ⟨h, (projected_roi_consistency (fun _ => 1/2) 1 SeasonType.spring 0 0 samplePM 100 30 _ rfl).1 h⟩

/-- Metrics violating the documented field ranges: demand volatility `5`
(a perfectly possible value once metrics are loaded from
`product_metrics.json` or pushed through `update_product_metrics`). -/
def badPM : ProductMetrics :=
  { cost_per_unit := 1
    selling_price := 2
    avg_daily_sales := 1
    sales_velocity_trend := 0
    seasonal_factors := fun _ => 1
    current_inventory := 0
    reorder_point := 0
    historical_sell_through_rate := 1/2
    stockout_probability := 1/10
    demand_volatility := 5 }

/-- C3 counterexample: the confidence score returned by `calculate_roi` is
an *unclamped* mean, and leaves `[0, 1]` for metrics with demand
volatility `5` (the factor `1 - demand_volatility = -4` drags the mean to
`-0.34`). -/
theorem confidence_unclamped_counterexample :
    ¬ (0 ≤ (calculate_roi (fun _ => 1/2) 1 SeasonType.spring 0 0 badPM 10 30).confidence_score ∧
       (calculate_roi (fun _ => 1/2) 1 SeasonType.spring 0 0 badPM 10 30).confidence_score ≤ 1) := by
  have h : (calculate_roi (fun _ => 1/2) 1 SeasonType.spring 0 0 badPM 10 30).confidence_score
      = -(17/50 : ℚ) := by
    norm_num [calculate_roi, calculate_confidence_score, calculate_projected_demand,
      get_seasonal_factor, badPM]
  rw [h]
  norm_num

/-- C3 (amended): every `calculate_roi` result has `sell_through_rate ∈
[0.3, 0.98]` and `stockout_probability ∈ [0.01, 0.95]`; its
`confidence_score` lies in `[0, 1]` provided the product-metrics fields
are in their documented ranges (volatility and historical sell-through in
`[0, 1]`, nonnegative inventory and data age) — the score itself is never
clamped by the code. -/
theorem metric_ranges_amended (ncdf : ℚ → ℚ) (mm : ℚ) (season : SeasonType)
    (noise : ℚ) (age : ℤ) (pm : ProductMetrics) (qty window : ℤ)
    (r : ROICalculationResult)
    (hr : r = calculate_roi ncdf mm season noise age pm qty window) :
    (3/10 ≤ r.sell_through_rate ∧ r.sell_through_rate ≤ 98/100) ∧
    (1/100 ≤ r.stockout_probability ∧ r.stockout_probability ≤ 95/100) ∧
    (0 ≤ age → 0 ≤ pm.demand_volatility → pm.demand_volatility ≤ 1 →
      0 ≤ pm.historical_sell_through_rate → pm.historical_sell_through_rate ≤ 1 →
      0 ≤ pm.current_inventory →
      0 ≤ r.confidence_score ∧ r.confidence_score ≤ 1) := by
  subst hr
  simp only [calculate_roi]
  refine ⟨?_, ?_, ?_⟩
  · exact sell_through_rate_in_range pm qty _
  · exact stockout_probability_in_range ncdf pm qty window
  · intro hage hv0 hv1 hh0 hh1 hinv
    exact confidence_score_in_range age pm _ _ hage hv0 hv1 hh0 hh1 hinv

/-- Witness for the amended C3 at the sample metrics (all hypotheses hold
there). -/
theorem metric_ranges_amended_witness :
    (3/10 ≤ (calculate_roi (fun _ => 1/2) 1 SeasonType.spring 0 0 samplePM 100 30).sell_through_rate ∧
      (calculate_roi (fun _ => 1/2) 1 SeasonType.spring 0 0 samplePM 100 30).sell_through_rate ≤ 98/100) ∧
    (1/100 ≤ (calculate_roi (fun _ => 1/2) 1 SeasonType.spring 0 0 samplePM 100 30).stockout_probability ∧
      (calculate_roi (fun _ => 1/2) 1 SeasonType.spring 0 0 samplePM 100 30).stockout_probability ≤ 95/100) ∧
    (0 ≤ (calculate_roi (fun _ => 1/2) 1 SeasonType.spring 0 0 samplePM 100 30).confidence_score ∧
      (calculate_roi (fun _ => 1/2) 1 SeasonType.spring 0 0 samplePM 100 30).confidence_score ≤ 1) := by
  have h := metric_ranges_amended (fun _ => 1/2) 1 SeasonType.spring 0 0 samplePM 100 30 _ rfl
  exact ⟨h.1, h.2.1,
    h.2.2 (by norm_num) (by norm_num [samplePM]) (by norm_num [samplePM])
      (by norm_num [samplePM]) (by norm_num [samplePM]) (by norm_num [samplePM])⟩

end Roi

/-! ## Claims about the curriculum stages (C7) -/

namespace Curriculum

/-- C7 counterexample: at total budget 10 the stage timesteps sum to
`4 * (10 // 4) = 8`, not 10, and the `supplier_reliability` dial
(0.9, 0.8, 0.6, 0.5) *decreases* across consecutive stages, so it is not
non-decreasing for any budget. -/
theorem stage_claims_counterexample :
    (((create_curriculum_stages 10).map (fun st => st.timesteps)).sum = 8) ∧
    ¬ List.Chain' (fun a b => a.supplier_reliability ≤ b.supplier_reliability)
        (create_curriculum_stages 10) := by
  constructor
  · decide
  · intro h
    simp only [create_curriculum_stages, List.chain'_cons, List.chain'_singleton,
      and_true] at h
    have h9 : (9/10 : ℚ) ≤ 8/10 := h.1
    norm_num at h9

/-- C7 (amended): in `create_curriculum_stages`, the business-complexity,
market-volatility, demand-uncertainty and cash-flow-pressure dials are
non-decreasing across consecutive stages, while `supplier_reliability` is
non-increasing (reliability *drops* as difficulty rises); every dial lies
in `[0, 1]`; the stage timesteps sum to `4 * (total_timesteps // 4)`,
which equals the total budget exactly when it is divisible by 4. -/
theorem stage_properties_amended (total : ℤ) :
    List.Chain' (fun a b => a.business_complexity ≤ b.business_complexity)
      (create_curriculum_stages total) ∧
    List.Chain' (fun a b => a.market_volatility ≤ b.market_volatility)
      (create_curriculum_stages total) ∧
    List.Chain' (fun a b => a.demand_uncertainty ≤ b.demand_uncertainty)
      (create_curriculum_stages total) ∧
    List.Chain' (fun a b => a.cash_flow_pressure ≤ b.cash_flow_pressure)
      (create_curriculum_stages total) ∧
    List.Chain' (fun a b => b.supplier_reliability ≤ a.supplier_reliability)
      (create_curriculum_stages total) ∧
    (∀ st ∈ create_curriculum_stages total,
      (0 ≤ st.business_complexity ∧ st.business_complexity ≤ 1) ∧
      (0 ≤ st.market_volatility ∧ st.market_volatility ≤ 1) ∧
      (0 ≤ st.demand_uncertainty ∧ st.demand_uncertainty ≤ 1) ∧
      (0 ≤ st.supplier_reliability ∧ st.supplier_reliability ≤ 1) ∧
      (0 ≤ st.cash_flow_pressure ∧ st.cash_flow_pressure ≤ 1)) ∧
    ((create_curriculum_stages total).map (fun st => st.timesteps)).sum =
      4 * Int.fdiv total 4 ∧
    (4 ∣ total →
      ((create_curriculum_stages total).map (fun st => st.timesteps)).sum = total) := by
  refine ⟨?_, ?_, ?_, ?_, ?_, ?_, ?_, ?_⟩
  · simp only [create_curriculum_stages, List.chain'_cons, List.chain'_singleton, and_true]
    norm_num
  · simp only [create_curriculum_stages, List.chain'_cons, List.chain'_singleton, and_true]
    norm_num
  · simp only [create_curriculum_stages, List.chain'_cons, List.chain'_singleton, and_true]
    norm_num
  · simp only [create_curriculum_stages, List.chain'_cons, List.chain'_singleton, and_true]
    norm_num
  · simp only [create_curriculum_stages, List.chain'_cons, List.chain'_singleton, and_true]
    norm_num
  · intro st hst
    simp only [create_curriculum_stages, List.mem_cons, List.not_mem_nil, or_false] at hst
    rcases hst with rfl | rfl | rfl | rfl <;> norm_num
  · simp only [create_curriculum_stages, List.map_cons, List.map_nil, List.sum_cons,
      List.sum_nil]
    ring
  · rintro ⟨k, rfl⟩
    simp only [create_curriculum_stages, List.map_cons, List.map_nil, List.sum_cons,
      List.sum_nil]
    rw [Int.mul_fdiv_cancel_left k (by norm_num)]
    ring

/-- Witness for the amended C7 at the divisible budget 8: the timesteps
then sum exactly to the budget. -/
theorem stage_properties_amended_witness :
    (4 : ℤ) ∣ 8 ∧
    ((create_curriculum_stages 8).map (fun st => st.timesteps)).sum = 8 :=
  ⟨by norm_num, (stage_properties_amended 8).2.2.2.2.2.2.2 (by norm_num)⟩

end Curriculum

/-! ## Claims about the retraining trigger (C8) -/

namespace Retrain

open Tracking

/-- C8: `should_retrain` agrees with the spec's ordered, short-circuiting
condition list (first satisfied condition reported), and in particular a
tracker with fewer completed outcomes than the retraining threshold
always yields `(False, "insufficient_outcomes")`. -/
theorem should_retrain_order (now : ℤ) (sys : RetrainSystem) :
    should_retrain now sys = should_retrain_spec now sys ∧
    ((completedOutcomes sys.tracker).length < sys.retraining_threshold →
      should_retrain now sys = (false, "insufficient_outcomes")) := by
  constructor
  · unfold should_retrain should_retrain_spec
    by_cases h1 : (completedOutcomes sys.tracker).length < sys.retraining_threshold
    · simp [h1]
    · by_cases h2 : averageRoiAccuracy sys.tracker < 6/10
      · simp [h1, h2]
      · by_cases h3 : satisfactionBad (averageUserSatisfaction sys.tracker) = true
        · simp [h1, h2, h3]
        · by_cases h4 : totalActualProfit sys.tracker < -1000
          · simp [h1, h2, h3, h4]
          · by_cases h5 : scheduledDue now sys = true
            · simp [h1, h2, h3, h4, h5]
            · simp [h1, h2, h3, h4, h5]
  · intro h
    unfold should_retrain
    rw [if_pos h]

/-- A completed outcome record used to instantiate the retrain scenario. -/
def completedRec : OutcomeData :=
  { task_id := "t"
    predicted_roi := 10
    predicted_profit := 0
    restock_quantity := 1
    restock_cost := 1
    status := "completed" }

/-- The scenario system: 5 completed outcomes, threshold 10, no training
history. -/
def sysEx : RetrainSystem :=
  { tracker := { outcome_data := List.replicate 5 completedRec, enhanced_rewards := [] }
    retraining_threshold := 10
    training_metrics := [] }

/-- Witness for C8: 5 completed outcomes with threshold 10 report
`(False, "insufficient_outcomes")`. -/
theorem should_retrain_order_witness :
    (completedOutcomes sysEx.tracker).length < sysEx.retraining_threshold ∧
    should_retrain 0 sysEx = (false, "insufficient_outcomes") := by
  have h : (completedOutcomes sysEx.tracker).length < sysEx.retraining_threshold := by
    decide
  exact ⟨h, (should_retrain_order 0 sysEx).2 h⟩

end Retrain

/-! ## Claims about the outcome tracker (C4, C5, C6, C10) -/

namespace Tracking

/-- C10: `collect_user_feedback` on a task id with no outcome record
returns `False` and leaves the tracker state (records, statuses, feedback
fields and rewards) entirely unchanged, creating no new record. -/
theorem feedback_missing_task (now : ℤ) (s : TrackerState) (tid fb : String) (sat : ℚ)
    (h : ∀ o ∈ s.outcome_data, o.task_id ≠ tid) :
    collect_user_feedback now s tid fb sat = (false, s) := by
  unfold collect_user_feedback
  rw [if_neg (by simpa using h)]

/-- A record for task id `"a"`, used by the C10 scenario. -/
def feedbackRec : OutcomeData :=
  { task_id := "a"
    predicted_roi := 0
    predicted_profit := 0
    restock_quantity := 0
    restock_cost := 0 }

/-- A tracker holding exactly one record, for task id `"a"`. -/
def feedbackState : TrackerState :=
  { outcome_data := [feedbackRec], enhanced_rewards := [] }

/-- Witness for C10: feedback for the unknown task `"b"` is rejected and
the state survives untouched. -/
theorem feedback_missing_task_witness :
    collect_user_feedback 0 feedbackState "b" "late delivery" 2 = (false, feedbackState) :=
  feedback_missing_task 0 feedbackState "b" "late delivery" 2 (by decide)

/-- The record used to instantiate the sell-through claims: 10 units
restocked, tracked over a 10-day window. -/
def exOutcome : OutcomeData :=
  { task_id := "T-1"
    predicted_roi := 25
    predicted_profit := 0
    restock_quantity := 10
    restock_cost := 100
    tracking_start := some 0
    tracking_end := some 10 }

/-- Noise draws making the mock sales land exactly on the prediction-free
values: 15 daily sales before, multiplier 1.0 after, exact cost. -/
def exNoise : CaptureNoise := ⟨0, 0, -1/5, 0⟩

/-- C6 counterexample: capturing `exOutcome` stores
`sell_through_rate = 100` — the *percentage* `(units_sold /
restock_quantity) × 100` — while the claim's fraction
`units_sold / restock_quantity` is `1` there (all 10 restocked units
sold, `actual_sales_after = 75`). -/
theorem sell_through_percentage_counterexample :
    (capture_mock_outcome_data 100 exNoise exOutcome).map
        (fun o' => (o'.sell_through_rate, o'.actual_sales_after)) = some (100, 75) ∧
    min (exOutcome.restock_quantity : ℚ) 75 / (exOutcome.restock_quantity : ℚ) = 1 ∧
    (100 : ℚ) ≠ 1 := by
  refine ⟨?_, by norm_num [exOutcome], by norm_num⟩
  norm_num [capture_mock_outcome_data, exOutcome, exNoise]

/-- C6 (amended): for every record with positive `restock_quantity` that
`_capture_mock_outcome_data` captures, the stored `sell_through_rate` is
the *percentage* `units_sold / restock_quantity × 100` (with `units_sold
= min(restock_quantity, actual_sales_after)`), and it lies in `[0, 100]`. -/
theorem sell_through_rate_amended (now : ℤ) (ns : CaptureNoise) (o o' : OutcomeData)
    (hcap : capture_mock_outcome_data now ns o = some o')
    (hq : 0 < o.restock_quantity) :
    o'.sell_through_rate =
      min (o.restock_quantity : ℚ) o'.actual_sales_after / (o.restock_quantity : ℚ) * 100 ∧
    0 ≤ o'.sell_through_rate ∧ o'.sell_through_rate ≤ 100 := by
  have hqq : (0 : ℚ) < (o.restock_quantity : ℚ) := by exact_mod_cast hq
  unfold capture_mock_outcome_data at hcap
  cases hts : o.tracking_start with
  | none => rw [hts] at hcap; simp at hcap
  | some ts =>
    cases hte : o.tracking_end with
    | none => rw [hts, hte] at hcap; simp at hcap
    | some te =>
      rw [hts, hte] at hcap
      simp only [Option.some.injEq] at hcap
      subst hcap
      simp only [if_pos hq]
      refine ⟨trivial, ?_, ?_⟩
      · apply mul_nonneg _ (by norm_num)
        apply div_nonneg _ hqq.le
        exact le_min hqq.le (le_max_left 0 _)
      · have hle : min ((o.restock_quantity : ℚ))
            (max 0 ((15 + ns.sales_noise) * (12/10 + ns.after_noise) * (((te - ts : ℤ) : ℚ) / 2)))
            / (o.restock_quantity : ℚ) ≤ 1 := by
          rw [div_le_one hqq]
          exact min_le_left _ _
        calc min ((o.restock_quantity : ℚ)) _ / (o.restock_quantity : ℚ) * 100
            ≤ 1 * 100 := by
              apply mul_le_mul_of_nonneg_right hle (by norm_num)
          _ = 100 := by norm_num

/-- The record produced by capturing `exOutcome` with the `exNoise`
draws. -/
def exCaptured : OutcomeData :=
  (capture_mock_outcome_data 100 exNoise exOutcome).getD exOutcome

/-- Witness for the amended C6 at the concrete capture. -/
theorem sell_through_rate_amended_witness :
    0 < exOutcome.restock_quantity ∧
    exCaptured.sell_through_rate =
      min (exOutcome.restock_quantity : ℚ) exCaptured.actual_sales_after /
        (exOutcome.restock_quantity : ℚ) * 100 := by
  have hc : capture_mock_outcome_data 100 exNoise exOutcome = some exCaptured := rfl
  have hq : 0 < exOutcome.restock_quantity := by norm_num [exOutcome]
  exact ⟨hq, (sell_through_rate_amended 100 exNoise exOutcome exCaptured hc hq).1⟩

/-- `_calculate_roi_accuracy` agrees with the closed formula
`max 0 (1 - |p - a| / max |p| (max |a| 10))` even in its special-cased
branch for `p = a = 0`. -/
theorem calculate_roi_accuracy_eq (p a : ℚ) :
    calculate_roi_accuracy p a = max 0 (1 - |p - a| / max |p| (max |a| 10)) := by
  unfold calculate_roi_accuracy
  by_cases h : p = 0 ∧ a = 0
  · rw [if_pos h]
    rcases h with ⟨hp, ha⟩
    subst hp; subst ha
    norm_num
  · rw [if_neg h]

theorem calculate_enhanced_reward_task_id (now : ℤ) (o : OutcomeData) :
    (calculate_enhanced_reward now o).task_id = o.task_id := rfl

/-- When an eligible record's task id identifies it uniquely among the
records and no reward for it exists yet, the `generate_enhanced_rewards`
loop emits exactly `calculate_enhanced_reward` of that record. -/
theorem generate_loop_mem (now : ℤ) :
    ∀ (outs : List OutcomeData) (rs : List EnhancedReward) (o : OutcomeData),
      o ∈ outs → rewardEligible o →
      (∀ o' ∈ outs, o'.task_id = o.task_id → o' = o) →
      (∀ r ∈ rs, r.task_id ≠ o.task_id) →
      ∃ r ∈ (generate_loop now outs rs).1, r = calculate_enhanced_reward now o := by
  intro outs
  induction outs with
  | nil => intro rs o ho _ _ _; simp at ho
  | cons x rest ih =>
    intro rs o ho helig hid hnew
    by_cases hxo : x = o
    · subst hxo
      simp only [generate_loop]
      rw [if_pos ⟨helig, hnew⟩]
      exact ⟨_, List.mem_cons_self _ _, rfl⟩
    · have ho' : o ∈ rest := by
        rcases List.mem_cons.mp ho with rfl | h'
        · exact absurd rfl hxo
        · exact h'
      have hxid : x.task_id ≠ o.task_id := fun hc =>
        hxo (hid x (List.mem_cons_self _ _) hc)
      have hid' : ∀ o' ∈ rest, o'.task_id = o.task_id → o' = o := fun o' h' =>
        hid o' (List.mem_cons_of_mem _ h')
      simp only [generate_loop]
      by_cases hbranch : rewardEligible x ∧ ∀ r ∈ rs, r.task_id ≠ x.task_id
      · rw [if_pos hbranch]
        have hnew' : ∀ r ∈ rs ++ [calculate_enhanced_reward now x],
            r.task_id ≠ o.task_id := by
          intro r hr
          rcases List.mem_append.mp hr with hr' | hr'
          · exact hnew r hr'
          · rw [List.mem_singleton] at hr'
            subst hr'
            rw [calculate_enhanced_reward_task_id]
            exact hxid
        obtain ⟨r, hrmem, hreq⟩ := ih (rs ++ [calculate_enhanced_reward now x]) o ho' helig hid' hnew'
        exact ⟨r, List.mem_cons_of_mem _ hrmem, hreq⟩
      · rw [if_neg hbranch]
        exact ih rs o ho' helig hid' hnew

/-- C4: for every completed and captured record whose task id has no
existing reward (and identifies the record uniquely),
`generate_enhanced_rewards` emits a reward with `base_reward =
actual_profit / 100`, `actual_roi_reward = (actual_roi / 100) ×
accuracy(predicted, actual)` with `accuracy = max(0, 1 - |p - a| /
max(|p|, |a|, 10))`, `user_feedback_bonus = ((satisfaction - 3) / 2) ×
0.2` when satisfaction exists and `0` otherwise, `accuracy_penalty =
-min(|p - a| / 100, 0.5)`, and `total_reward` the sum of the four
terms. -/
theorem enhanced_reward_formula (now : ℤ) (s : TrackerState) (o : OutcomeData)
    (ho : o ∈ s.outcome_data)
    (hid : ∀ o' ∈ s.outcome_data, o'.task_id = o.task_id → o' = o)
    (hstatus : o.status = "completed") (hcap : o.outcome_captured_at.isSome = true)
    (hnew : ∀ r ∈ s.enhanced_rewards, r.task_id ≠ o.task_id) :
    ∃ r ∈ (generate_enhanced_rewards now s).1,
      r.task_id = o.task_id ∧
      r.base_reward = o.actual_profit / 100 ∧
      r.actual_roi_reward = o.actual_roi / 100 *
        max 0 (1 - |o.predicted_roi - o.actual_roi| /
          max |o.predicted_roi| (max |o.actual_roi| 10)) ∧
      (o.user_satisfaction = none → r.user_feedback_bonus = 0) ∧
      (∀ v, o.user_satisfaction = some v →
        r.user_feedback_bonus = (v - 3) / 2 * (2/10)) ∧
      r.accuracy_penalty = -(min (|o.predicted_roi - o.actual_roi| / 100) (1/2)) ∧
      r.total_reward =
        r.base_reward + r.actual_roi_reward + r.user_feedback_bonus + r.accuracy_penalty := by
  obtain ⟨r, hrmem, hreq⟩ :=
    generate_loop_mem now s.outcome_data s.enhanced_rewards o ho ⟨hstatus, hcap⟩ hid hnew
  refine ⟨r, hrmem, ?_⟩
  subst hreq
  refine ⟨rfl, rfl, ?_, ?_, ?_, rfl, rfl⟩
  · show o.actual_roi / 100 * calculate_roi_accuracy o.predicted_roi o.actual_roi = _
    rw [calculate_roi_accuracy_eq]
  · intro hnone
    simp only [calculate_enhanced_reward, hnone]
  · intro v hv
    simp only [calculate_enhanced_reward, hv]

/-- The record instantiating C4: completed, captured, satisfaction 4. -/
def c4Rec : OutcomeData :=
  { task_id := "T-42"
    predicted_roi := 25
    predicted_profit := 0
    restock_quantity := 10
    restock_cost := 100
    actual_roi := 20
    actual_profit := 150
    outcome_captured_at := some 50
    user_satisfaction := some 4
    status := "completed" }

/-- A tracker holding only `c4Rec` and no rewards. -/
def c4State : TrackerState :=
  { outcome_data := [c4Rec], enhanced_rewards := [] }

/-- Witness for C4 at the concrete tracker. -/
theorem enhanced_reward_formula_witness :
    ∃ r ∈ (generate_enhanced_rewards 60 c4State).1,
      r.task_id = c4Rec.task_id ∧
      r.base_reward = c4Rec.actual_profit / 100 ∧
      r.actual_roi_reward = c4Rec.actual_roi / 100 *
        max 0 (1 - |c4Rec.predicted_roi - c4Rec.actual_roi| /
          max |c4Rec.predicted_roi| (max |c4Rec.actual_roi| 10)) ∧
      (c4Rec.user_satisfaction = none → r.user_feedback_bonus = 0) ∧
      (∀ v, c4Rec.user_satisfaction = some v →
        r.user_feedback_bonus = (v - 3) / 2 * (2/10)) ∧
      r.accuracy_penalty = -(min (|c4Rec.predicted_roi - c4Rec.actual_roi| / 100) (1/2)) ∧
      r.total_reward =
        r.base_reward + r.actual_roi_reward + r.user_feedback_bonus + r.accuracy_penalty :=
  enhanced_reward_formula 60 c4State c4Rec (by simp [c4State])
    (by intro o' h' _; simpa [c4State] using h')
    rfl rfl (by simp [c4State])

end Tracking

namespace Tracking

/-- A record is stable under repeated capture at the same instant: if it
is still `tracking` with an elapsed window, its capture must have failed
for lack of a `tracking_start` (and will fail identically again). -/
def captureStable (now : ℤ) (o : OutcomeData) : Prop :=
  (o.status = "tracking" ∧ should_capture_outcome now o) → o.tracking_start = none

/-- A successful mock capture always marks the record `completed`. -/
theorem capture_mock_status (now : ℤ) (ns : CaptureNoise) (o o' : OutcomeData)
    (h : capture_mock_outcome_data now ns o = some o') : o'.status = "completed" := by
  unfold capture_mock_outcome_data at h
  cases hts : o.tracking_start with
  | none => rw [hts] at h; simp at h
  | some ts =>
    cases hte : o.tracking_end with
    | none => rw [hts, hte] at h; simp at h
    | some te =>
      rw [hts, hte] at h
      simp only [Option.some.injEq] at h
      subst h
      rfl

/-- A record without a `tracking_start` never captures. -/
theorem capture_mock_none_of_no_start (now : ℤ) (ns : CaptureNoise) (o : OutcomeData)
    (h : o.tracking_start = none) : capture_mock_outcome_data now ns o = none := by
  unfold capture_mock_outcome_data
  rw [h]

/-- A failed capture of a due record pinpoints the missing
`tracking_start`. -/
theorem capture_mock_none_start (now : ℤ) (ns : CaptureNoise) (o : OutcomeData)
    (hfail : capture_mock_outcome_data now ns o = none)
    (hdue : should_capture_outcome now o = true) : o.tracking_start = none := by
  cases hts : o.tracking_start with
  | none => rfl
  | some ts =>
    cases hte : o.tracking_end with
    | none =>
      unfold should_capture_outcome at hdue
      rw [hte] at hdue
      simp at hdue
    | some te =>
      unfold capture_mock_outcome_data at hfail
      rw [hts, hte] at hfail
      simp at hfail

/-- Every record emerging from the capture loop is capture-stable. -/
theorem capture_loop_stable (now : ℤ) (ν : ℕ → CaptureNoise) :
    ∀ (l : List OutcomeData) (k : ℕ), ∀ o' ∈ (capture_loop now ν l k).1,
      captureStable now o' := by
  intro l
  induction l with
  | nil => intro k o' h; simp [capture_loop] at h
  | cons o rest ih =>
    intro k o' h
    simp only [capture_loop] at h
    by_cases hcond : o.status = "tracking" ∧ should_capture_outcome now o
    · rw [if_pos hcond] at h
      cases hcm : capture_mock_outcome_data now (ν k) o with
      | some o'' =>
        rw [hcm] at h
        rcases List.mem_cons.mp h with rfl | h'
        · intro hc
          have := capture_mock_status now (ν k) o o' hcm
          rw [this] at hc
          exact absurd hc.1 (by decide)
        · exact ih (k + 1) o' h'
      | none =>
        rw [hcm] at h
        rcases List.mem_cons.mp h with rfl | h'
        · intro _
          exact capture_mock_none_start now (ν k) o' hcm hcond.2
        · exact ih (k + 1) o' h'
    · rw [if_neg hcond] at h
      rcases List.mem_cons.mp h with rfl | h'
      · intro hc
        exact absurd hc hcond
      · exact ih (k + 1) o' h'

/-- On a list of capture-stable records the capture loop is the identity
and counts zero captures. -/
theorem capture_loop_fixed (now : ℤ) (ν : ℕ → CaptureNoise) :
    ∀ (l : List OutcomeData) (k : ℕ), (∀ o ∈ l, captureStable now o) →
      capture_loop now ν l k = (l, 0) := by
  intro l
  induction l with
  | nil => intro k _; rfl
  | cons o rest ih =>
    intro k hst
    have htail := ih (k + 1) (fun o' h' => hst o' (List.mem_cons_of_mem _ h'))
    simp only [capture_loop, htail]
    by_cases hcond : o.status = "tracking" ∧ should_capture_outcome now o
    · rw [if_pos hcond]
      rw [capture_mock_none_of_no_start now (ν k) o
        (hst o (List.mem_cons_self _ _) hcond)]
    · rw [if_neg hcond]

/-- The final reward list of the generate loop extends its input. -/
theorem generate_loop_final_append (now : ℤ) :
    ∀ (outs : List OutcomeData) (rs : List EnhancedReward),
      ∃ ext, (generate_loop now outs rs).2 = rs ++ ext := by
  intro outs
  induction outs with
  | nil => intro rs; exact ⟨[], by simp [generate_loop]⟩
  | cons x rest ih =>
    intro rs
    simp only [generate_loop]
    by_cases hbranch : rewardEligible x ∧ ∀ r ∈ rs, r.task_id ≠ x.task_id
    · rw [if_pos hbranch]
      obtain ⟨ext, hext⟩ := ih (rs ++ [calculate_enhanced_reward now x])
      exact ⟨[calculate_enhanced_reward now x] ++ ext, by rw [hext, List.append_assoc]⟩
    · rw [if_neg hbranch]
      exact ih rs

/-- After the generate loop, every eligible record has a reward carrying
its task id in the final reward list. -/
theorem generate_loop_covers (now : ℤ) :
    ∀ (outs : List OutcomeData) (rs : List EnhancedReward) (o : OutcomeData),
      o ∈ outs → rewardEligible o →
      ∃ r ∈ (generate_loop now outs rs).2, r.task_id = o.task_id := by
  intro outs
  induction outs with
  | nil => intro rs o ho; simp at ho
  | cons x rest ih =>
    intro rs o ho helig
    simp only [generate_loop]
    by_cases hbranch : rewardEligible x ∧ ∀ r ∈ rs, r.task_id ≠ x.task_id
    · rw [if_pos hbranch]
      rcases List.mem_cons.mp ho with rfl | ho'
      · obtain ⟨ext, hext⟩ := generate_loop_final_append now rest
          (rs ++ [calculate_enhanced_reward now o])
        refine ⟨calculate_enhanced_reward now o, ?_, calculate_enhanced_reward_task_id now o⟩
        rw [hext]
        exact List.mem_append_left _ (List.mem_append_right _ (List.mem_singleton.mpr rfl))
      · exact ih (rs ++ [calculate_enhanced_reward now x]) o ho' helig
    · rw [if_neg hbranch]
      rcases List.mem_cons.mp ho with rfl | ho'
      · have hex : ∃ r ∈ rs, r.task_id = o.task_id := by
          by_contra hnone
          push_neg at hnone
          exact hbranch ⟨helig, fun r hr => hnone r hr⟩
        obtain ⟨r, hr, hid⟩ := hex
        obtain ⟨ext, hext⟩ := generate_loop_final_append now rest rs
        exact ⟨r, by rw [hext]; exact List.mem_append_left _ hr, hid⟩
      · exact ih rs o ho' helig

/-- When every eligible record already has a reward, the generate loop
emits nothing and leaves the reward list unchanged. -/
theorem generate_loop_noop (now : ℤ) :
    ∀ (outs : List OutcomeData) (rs : List EnhancedReward),
      (∀ o ∈ outs, rewardEligible o → ∃ r ∈ rs, r.task_id = o.task_id) →
      generate_loop now outs rs = ([], rs) := by
  intro outs
  induction outs with
  | nil => intro rs _; rfl
  | cons x rest ih =>
    intro rs hcov
    simp only [generate_loop]
    rw [if_neg]
    · exact ih rs (fun o ho he => hcov o (List.mem_cons_of_mem _ ho) he)
    · rintro ⟨helig, hall⟩
      obtain ⟨r, hr, hid⟩ := hcov x (List.mem_cons_self _ _) helig
      exact hall r hr hid

/-- The generate loop preserves distinctness of reward task ids. -/
theorem generate_loop_nodup (now : ℤ) :
    ∀ (outs : List OutcomeData) (rs : List EnhancedReward),
      (rs.map (fun r => r.task_id)).Nodup →
      (((generate_loop now outs rs).2).map (fun r => r.task_id)).Nodup := by
  intro outs
  induction outs with
  | nil => intro rs h; exact h
  | cons x rest ih =>
    intro rs h
    simp only [generate_loop]
    by_cases hbranch : rewardEligible x ∧ ∀ r ∈ rs, r.task_id ≠ x.task_id
    · rw [if_pos hbranch]
      apply ih
      rw [List.map_append]
      apply List.Nodup.append h (by simp)
      intro a ha hb
      simp only [List.map_cons, List.map_nil, List.mem_singleton] at hb
      rw [calculate_enhanced_reward_task_id] at hb
      obtain ⟨r, hr, hrid⟩ := List.mem_map.mp ha
      exact hbranch.2 r hr (hrid.trans hb)
    · rw [if_neg hbranch]
      exact ih rs h

/-- One pass of the `run_outcome_capture_cycle` loop body after the
approved-task file scan: capture due outcomes, then generate rewards.
Returns the new tracker state, the capture count and the newly generated
rewards. -/
def capture_cycle (now : ℤ) (ν : ℕ → CaptureNoise) (s : TrackerState) :
    TrackerState × ℕ × List EnhancedReward :=
  let c := capture_business_outcomes now ν s
  let g := generate_enhanced_rewards now c.1
  (g.2, c.2, g.1)

end Tracking


namespace Tracking

/-- Unfolding of one capture-then-generate pass into its two loops. -/
theorem capture_cycle_eq (now : ℤ) (ν : ℕ → CaptureNoise) (s : TrackerState) :
    capture_cycle now ν s =
      (⟨(capture_loop now ν s.outcome_data 0).1,
        (generate_loop now (capture_loop now ν s.outcome_data 0).1 s.enhanced_rewards).2⟩,
       (capture_loop now ν s.outcome_data 0).2,
       (generate_loop now (capture_loop now ν s.outcome_data 0).1 s.enhanced_rewards).1) :=
  rfl

/-- C5: with no time elapsed between the two passes, running
capture-then-generate a second time changes nothing: the second capture
counts zero completions and leaves every record as it was, the second
generate emits no reward and keeps the reward list, and (provided the
stored reward task ids were distinct to begin with) no task id ever
carries more than one reward. -/
theorem capture_generate_idempotent (now : ℤ) (ν1 ν2 : ℕ → CaptureNoise) (s : TrackerState)
    (hnd : (s.enhanced_rewards.map (fun r => r.task_id)).Nodup) :
    (capture_cycle now ν2 (capture_cycle now ν1 s).1).1 = (capture_cycle now ν1 s).1 ∧
    (capture_cycle now ν2 (capture_cycle now ν1 s).1).2.1 = 0 ∧
    (capture_cycle now ν2 (capture_cycle now ν1 s).1).2.2 = [] ∧
    (((capture_cycle now ν1 s).1).enhanced_rewards.map (fun r => r.task_id)).Nodup := by
  have hfix : capture_loop now ν2 (capture_loop now ν1 s.outcome_data 0).1 0 =
      ((capture_loop now ν1 s.outcome_data 0).1, 0) :=
    capture_loop_fixed now ν2 _ 0 (capture_loop_stable now ν1 s.outcome_data 0)
  have hnoop : generate_loop now (capture_loop now ν1 s.outcome_data 0).1
      (generate_loop now (capture_loop now ν1 s.outcome_data 0).1 s.enhanced_rewards).2 =
      ([], (generate_loop now (capture_loop now ν1 s.outcome_data 0).1 s.enhanced_rewards).2) :=
    generate_loop_noop now _ _
      (fun o ho he => generate_loop_covers now _ s.enhanced_rewards o ho he)
  refine ⟨?_, ?_, ?_, ?_⟩
  · simp only [capture_cycle_eq]
    simp [hfix, hnoop]
  · simp only [capture_cycle_eq]
    simp [hfix]
  · simp only [capture_cycle_eq]
    simp [hfix, hnoop]
  · simp only [capture_cycle_eq]
    exact generate_loop_nodup now _ s.enhanced_rewards hnd

/-- The tracker instantiating C5: one due `tracking` record, no rewards. -/
def c5State : TrackerState :=
  { outcome_data := [exOutcome], enhanced_rewards := [] }

/-- Witness for C5 at the concrete tracker. -/
theorem capture_generate_idempotent_witness :
    ((c5State.enhanced_rewards.map (fun r => r.task_id)).Nodup) ∧
    (capture_cycle 100 (fun _ => exNoise)
        (capture_cycle 100 (fun _ => exNoise) c5State).1).1 =
      (capture_cycle 100 (fun _ => exNoise) c5State).1 ∧
    (capture_cycle 100 (fun _ => exNoise)
        (capture_cycle 100 (fun _ => exNoise) c5State).1).2.1 = 0 ∧
    (capture_cycle 100 (fun _ => exNoise)
        (capture_cycle 100 (fun _ => exNoise) c5State).1).2.2 = [] := by
  have h := capture_generate_idempotent 100 (fun _ => exNoise) (fun _ => exNoise) c5State
    (by simp [c5State])
  exact ⟨by simp [c5State], h.1, h.2.1, h.2.2.1⟩

end Tracking

namespace Env

/-- Product 1 of `_create_product_catalog` ("Tech Pro Wireless Mouse");
the fields the simulator never reads (name, category, elasticity,
supplier reliability) are omitted. -/
def product0 : ProductInfo :=
  { cost_price := 25
    selling_price := 4999/100
    storage_cost_per_unit := 3/4
    base_demand := 45
    seasonality_factor := fun sn => match sn with
      | SeasonType.winter => 13/10
      | SeasonType.spring => 1
      | SeasonType.summer => 8/10
      | SeasonType.fall => 11/10
    lead_time := 7 }

/-- Product 2 ("Organic Garden Fertilizer"). -/
def product1 : ProductInfo :=
  { cost_price := 18
    selling_price := 3499/100
    storage_cost_per_unit := 12/10
    base_demand := 30
    seasonality_factor := fun sn => match sn with
      | SeasonType.winter => 4/10
      | SeasonType.spring => 18/10
      | SeasonType.summer => 15/10
      | SeasonType.fall => 8/10
    lead_time := 14 }

/-- Product 3 ("Premium Athletic Socks"). -/
def product2 : ProductInfo :=
  { cost_price := 8
    selling_price := 1999/100
    storage_cost_per_unit := 1/4
    base_demand := 60
    seasonality_factor := fun sn => match sn with
      | SeasonType.winter => 11/10
      | SeasonType.spring => 12/10
      | SeasonType.summer => 1
      | SeasonType.fall => 9/10
    lead_time := 10 }

/-- Product 4 ("Protein Powder Vanilla"). -/
def product3 : ProductInfo :=
  { cost_price := 32
    selling_price := 5999/100
    storage_cost_per_unit := 1
    base_demand := 25
    seasonality_factor := fun sn => match sn with
      | SeasonType.winter => 11/10
      | SeasonType.spring => 13/10
      | SeasonType.summer => 1
      | SeasonType.fall => 8/10
    lead_time := 12 }

/-- Product 5 ("Ergonomic Desk Organizer"). -/
def product4 : ProductInfo :=
  { cost_price := 22
    selling_price := 4299/100
    storage_cost_per_unit := 8/10
    base_demand := 20
    seasonality_factor := fun sn => match sn with
      | SeasonType.winter => 8/10
      | SeasonType.spring => 1
      | SeasonType.summer => 9/10
      | SeasonType.fall => 13/10
    lead_time := 8 }

/-- `_create_product_catalog`. -/
def create_product_catalog : List ProductInfo :=
  [product0, product1, product2, product3, product4]

/-- The C2 state invariant: nonnegative inventories and nonnegative
pending-order quantities. -/
def InvOK (s : BState) : Prop :=
  (∀ x ∈ s.inventory_levels, 0 ≤ x) ∧
  (∀ q ∈ s.pending_orders, ∀ o ∈ q, 0 ≤ o.quantity)

/-- Setting an entry that satisfies `P` preserves `∀`-over-members. -/
theorem forall_mem_set {α : Type} {P : α → Prop} {l : List α} {i : ℕ} {a : α}
    (hl : ∀ x ∈ l, P x) (ha : P a) : ∀ x ∈ l.set i a, P x := by
  intro x hx
  rcases List.mem_or_eq_of_mem_set hx with h | rfl
  · exact hl x h
  · exact ha

/-- `process_orders` keeps the inventory nonnegative and the surviving
order quantities nonnegative. -/
theorem process_orders_ok {inv : ℤ} {orders : List PendingOrder}
    (hinv : 0 ≤ inv) (hord : ∀ o ∈ orders, 0 ≤ o.quantity) :
    0 ≤ (process_orders inv orders).1 ∧
    ∀ o ∈ (process_orders inv orders).2, 0 ≤ o.quantity := by
  unfold process_orders
  refine foldl_preserve
    (fun acc : ℤ × List PendingOrder => 0 ≤ acc.1 ∧ ∀ o ∈ acc.2, 0 ≤ o.quantity)
    _ orders (inv, []) ?_ ⟨hinv, by simp⟩
  intro acc o ho hacc
  dsimp only
  by_cases hd : o.days_remaining - 1 ≤ 0
  · rw [if_pos hd]
    exact ⟨add_nonneg hacc.1 (hord o ho), hacc.2⟩
  · rw [if_neg hd]
    refine ⟨hacc.1, ?_⟩
    intro o' ho'
    rcases List.mem_append.mp ho' with h' | h'
    · exact hacc.2 o' h'
    · rw [List.mem_singleton] at h'
      subst h'
      exact hord o ho

/-- One delivery-loop iteration preserves the invariant. -/
theorem delivery_step_inv (s : BState) (i : ℕ) (h : InvOK s) :
    InvOK (delivery_step s i) := by
  have hord : ∀ o ∈ s.pending_orders.getD i [], 0 ≤ o.quantity := by
    intro o ho
    obtain ⟨q, hq, hoq⟩ := mem_of_mem_getD_nil ho
    exact h.2 q hq o hoq
  have hpo := @process_orders_ok (s.inventory_levels.getD i 0) (s.pending_orders.getD i [])
    (@getD_zero_nonneg s.inventory_levels i h.1) hord
  unfold delivery_step
  exact ⟨forall_mem_set h.1 hpo.1, forall_mem_set h.2 hpo.2⟩

/-- `_process_supplier_deliveries` preserves the invariant. -/
theorem process_supplier_deliveries_inv (n : ℕ) (s : BState) (h : InvOK s) :
    InvOK (process_supplier_deliveries n s) :=
  foldl_preserve InvOK delivery_step (List.range n) s
    (fun t i _ ht => delivery_step_inv t i ht) h

/-- The capped quantity and cost actually ordered by
`_execute_restock_action` once a restock tier was selected. -/
def effective_restock (p : ProductInfo) (a : ℕ) (cash : ℚ) : ℤ × ℚ :=
  let quantity := restock_quantity_of a
  let cost : ℚ := (quantity : ℚ) * p.cost_price
  if cash < cost then
    (ratTrunc (cash / p.cost_price), (ratTrunc (cash / p.cost_price) : ℚ) * p.cost_price)
  else (quantity, cost)

/-- `_execute_restock_action` on a restock tier, written through
`effective_restock`. -/
theorem execute_restock_action_eq (p : ProductInfo) (a i : ℕ) (s : BState)
    (ha : a = 1 ∨ a = 2 ∨ a = 3) :
    execute_restock_action p a i s =
      if 0 < (effective_restock p a s.cash_flow).1 then
        ({ s with
            pending_orders := s.pending_orders.set i ((s.pending_orders.getD i []) ++
              [⟨(effective_restock p a s.cash_flow).1, p.lead_time,
                (effective_restock p a s.cash_flow).2⟩])
            cash_flow := s.cash_flow - (effective_restock p a s.cash_flow).2
            days_since_restock := s.days_since_restock.set i 0 },
          (effective_restock p a s.cash_flow).2)
      else (s, (effective_restock p a s.cash_flow).2) := by
  unfold execute_restock_action effective_restock
  rw [if_pos ha]

/-- A positive effective quantity spends a positive amount that never
exceeds the cash on hand. -/
theorem effective_restock_spend (p : ProductInfo) (a : ℕ) (cash : ℚ)
    (hp : 0 < p.cost_price) (hpos : 0 < (effective_restock p a cash).1) :
    0 < (effective_restock p a cash).2 ∧ (effective_restock p a cash).2 ≤ cash := by
  unfold effective_restock at hpos ⊢
  by_cases hc : cash < (restock_quantity_of a : ℚ) * p.cost_price
  · rw [if_pos hc] at hpos ⊢
    dsimp only at hpos ⊢
    have hcashpos : 0 < cash / p.cost_price := ratTrunc_pos_of_pos hpos
    have hle : (ratTrunc (cash / p.cost_price) : ℚ) ≤ cash / p.cost_price :=
      ratTrunc_le_self hcashpos.le
    constructor
    · exact mul_pos (by exact_mod_cast hpos) hp
    · calc (ratTrunc (cash / p.cost_price) : ℚ) * p.cost_price
          ≤ (cash / p.cost_price) * p.cost_price :=
            mul_le_mul_of_nonneg_right hle hp.le
        _ = cash := div_mul_cancel₀ cash hp.ne'
  · rw [if_neg hc] at hpos ⊢
    dsimp only at hpos ⊢
    push_neg at hc
    exact ⟨mul_pos (by exact_mod_cast hpos) hp, hc⟩

/-- `_execute_restock_action` preserves the invariant: the inventory is
untouched and any enqueued order has a positive quantity. -/
theorem execute_restock_action_inv (p : ProductInfo) (a i : ℕ) (s : BState)
    (h : InvOK s) : InvOK (execute_restock_action p a i s).1 := by
  by_cases ha : a = 1 ∨ a = 2 ∨ a = 3
  · rw [execute_restock_action_eq p a i s ha]
    by_cases hq : 0 < (effective_restock p a s.cash_flow).1
    · rw [if_pos hq]
      refine ⟨h.1, ?_⟩
      apply forall_mem_set h.2
      intro o ho
      rcases List.mem_append.mp ho with ho' | ho'
      · obtain ⟨q, hmem, hoq⟩ := mem_of_mem_getD_nil ho'
        exact h.2 q hmem o hoq
      · rw [List.mem_singleton] at ho'
        subst ho'
        exact hq.le
    · rw [if_neg hq]
      exact h
  · unfold execute_restock_action
    rw [if_neg ha]
    exact h

/-- The restocking loop preserves the invariant. -/
theorem execute_restocks_inv (products : List ProductInfo) (acts : ℕ → ℕ) (s : BState)
    (h : InvOK s) : InvOK (execute_restocks products acts s).1 := by
  unfold execute_restocks
  refine foldl_preserve (fun acc : BState × ℚ => InvOK acc.1) _
    (List.range products.length) (s, 0) ?_ h
  intro acc i _ hacc
  dsimp only
  by_cases hai : 0 < acts i
  · rw [if_pos hai]
    exact execute_restock_action_inv _ _ _ _ hacc
  · rw [if_neg hai]
    exact hacc

/-- `_execute_business_actions` preserves the invariant. -/
theorem execute_business_actions_inv (m : ℕ) (s : BState) (h : InvOK s) :
    InvOK (execute_business_actions m s) := by
  unfold execute_business_actions
  split_ifs <;> exact ⟨h.1, h.2⟩

/-- One daily-operations iteration preserves the invariant: sales are
capped at the available inventory. -/
theorem simulate_product_day_inv (products : List ProductInfo) (vars : ℕ → ℚ)
    (acc : DayAcc) (i : ℕ) (h : InvOK acc.s) :
    InvOK (simulate_product_day products vars acc i).s := by
  unfold simulate_product_day
  refine ⟨?_, h.2⟩
  apply forall_mem_set h.1
  have hci : 0 ≤ acc.s.inventory_levels.getD i 0 := getD_zero_nonneg h.1
  have hmin := min_le_right
    (max 0 (ratTrunc ((products.getD i default).base_demand *
      (products.getD i default).seasonality_factor acc.s.season *
      get_market_factor acc.s.market_condition *
      acc.s.demand_trends.getD i 0 * vars i)))
    (acc.s.inventory_levels.getD i 0)
  omega

/-- `_simulate_daily_operations` preserves the invariant. -/
theorem simulate_daily_operations_inv (products : List ProductInfo) (vars : ℕ → ℚ)
    (s : BState) (h : InvOK s) : InvOK (simulate_daily_operations products vars s).1 := by
  unfold simulate_daily_operations
  have hfold := foldl_preserve (fun acc : DayAcc => InvOK acc.s)
    (simulate_product_day products vars) (List.range products.length) ⟨s, 0, 0, 0, 0⟩
    (fun acc i _ hacc => simulate_product_day_inv products vars acc i hacc) h
  dsimp only
  split_ifs <;> exact ⟨hfold.1, hfold.2⟩

/-- `_update_business_state` preserves the invariant. -/
theorem update_business_state_inv (products : List ProductInfo) (daily : DailyResults)
    (s : BState) (h : InvOK s) : InvOK (update_business_state products daily s) := by
  unfold update_business_state
  dsimp only
  split_ifs <;> exact ⟨h.1, h.2⟩

/-- `step` preserves the invariant. -/
theorem step_inv (products : List ProductInfo) (inp : StepInput) (s : BState)
    (h : InvOK s) : InvOK (step products inp s) :=
  update_business_state_inv _ _ _
    (simulate_daily_operations_inv _ _ _
      (execute_business_actions_inv _ _
        (execute_restocks_inv _ _ _
          (process_supplier_deliveries_inv _ _ h))))

/-- Any run of the simulator preserves the invariant. -/
theorem runSteps_inv (products : List ProductInfo) (inputs : List StepInput) (s : BState)
    (h : InvOK s) : InvOK (runSteps products inputs s) :=
  foldl_preserve InvOK _ inputs s (fun t inp _ ht => step_inv products inp t ht) h

/-- A freshly reset business state satisfies the invariant. -/
theorem create_business_state_inv (n : ℕ) (invs daysSince : List ℤ) (cash sat : ℚ)
    (mc : MarketCondition) (sn : SeasonType) (trends : List ℚ)
    (hinv : ∀ x ∈ invs, 0 ≤ x) :
    InvOK (create_business_state n invs daysSince cash sat mc sn trends) := by
  refine ⟨hinv, ?_⟩
  intro q hq o ho
  rw [List.eq_of_mem_replicate hq] at ho
  simp at ho

end Env

namespace Env

/-- C2: along every simulator run started from `_create_business_state`
(whose `randint(50, 200)` inventory draws are the `hinv` hypothesis),
every product inventory stays nonnegative after every step; and for every
restock action, either nothing is deducted (the action is skipped) or the
deducted cash is positive and never exceeds the cash flow available when
the action is applied — when the cash cannot cover the requested tier,
the purchased quantity is silently reduced to the affordable
`int(cash_flow / cost_price)` instead of the action failing. -/
theorem inventory_cash_invariant (products : List ProductInfo) (n : ℕ)
    (invs daysSince : List ℤ) (cash sat : ℚ) (mc : MarketCondition) (sn : SeasonType)
    (trends : List ℚ) (inputs : List StepInput)
    (hinv : ∀ x ∈ invs, 50 ≤ x ∧ x ≤ 200) :
    (∀ x ∈ (runSteps products inputs
        (create_business_state n invs daysSince cash sat mc sn trends)).inventory_levels,
      0 ≤ x) ∧
    (∀ (p : ProductInfo) (a i : ℕ) (t : BState), 0 < p.cost_price →
      (t.cash_flow - (execute_restock_action p a i t).1.cash_flow = 0 ∨
        (0 < t.cash_flow - (execute_restock_action p a i t).1.cash_flow ∧
          t.cash_flow - (execute_restock_action p a i t).1.cash_flow ≤ t.cash_flow))) ∧
    (∀ (p : ProductInfo) (a i : ℕ) (t : BState), (a = 1 ∨ a = 2 ∨ a = 3) →
      t.cash_flow < (restock_quantity_of a : ℚ) * p.cost_price →
      (execute_restock_action p a i t).1.pending_orders =
        (if 0 < ratTrunc (t.cash_flow / p.cost_price) then
          t.pending_orders.set i ((t.pending_orders.getD i []) ++
            [⟨ratTrunc (t.cash_flow / p.cost_price), p.lead_time,
              (ratTrunc (t.cash_flow / p.cost_price) : ℚ) * p.cost_price⟩])
        else t.pending_orders)) := by
  refine ⟨?_, ?_, ?_⟩
  · exact (runSteps_inv products inputs _
      (create_business_state_inv n invs daysSince cash sat mc sn trends
        (fun x hx => le_trans (by norm_num) (hinv x hx).1))).1
  · intro p a i t hp
    by_cases ha : a = 1 ∨ a = 2 ∨ a = 3
    · rw [execute_restock_action_eq p a i t ha]
      by_cases hq : 0 < (effective_restock p a t.cash_flow).1
      · rw [if_pos hq]
        right
        have hs := effective_restock_spend p a t.cash_flow hp hq
        dsimp only
        constructor
        · linarith [hs.1]
        · linarith [hs.1, hs.2]
      · rw [if_neg hq]
        left
        dsimp only
        ring
    · unfold execute_restock_action
      rw [if_neg ha]
      left
      dsimp only
      ring
  · intro p a i t ha hc
    rw [execute_restock_action_eq p a i t ha]
    have heff : effective_restock p a t.cash_flow =
        (ratTrunc (t.cash_flow / p.cost_price),
          (ratTrunc (t.cash_flow / p.cost_price) : ℚ) * p.cost_price) := by
      unfold effective_restock
      rw [if_pos hc]
    rw [heff]
    dsimp only
    by_cases hq : 0 < ratTrunc (t.cash_flow / p.cost_price)
    · rw [if_pos hq, if_pos hq]
    · rw [if_neg hq, if_neg hq]

/-- A state with only \$100 of cash, where a large restock must be capped. -/
def poorState : BState :=
  { inventory_levels := [10]
    days_since_restock := [0]
    cash_flow := 100
    customer_satisfaction := 1/2
    market_condition := MarketCondition.normal
    season := SeasonType.winter
    demand_trends := [1]
    monthly_revenue := 0
    monthly_costs := 0
    inventory_turnover := 0
    pending_orders := [[]]
    stockout_days := [0]
    total_profit := 0 }

/-- One step input: a large restock of product 0 plus a marketing push. -/
def c2Input : StepInput :=
  { pActions := fun j => if j = 0 then 3 else 0
    marketing_action := 1
    variances := fun _ => 1 }

/-- Witness for C2 on the real catalog: a concrete one-step run keeps
inventory 0 nonnegative, and a concrete tier-3 restock against \$100 of
cash is capped rather than failing. -/
theorem inventory_cash_invariant_witness :
    0 ≤ (runSteps create_product_catalog [c2Input]
        (create_business_state 5 [100, 80, 120, 60, 200] [0, 0, 0, 0, 0] 30000 (4/5)
          MarketCondition.normal SeasonType.spring [1, 1, 1, 1, 1])).inventory_levels.getD 0 0 ∧
    (poorState.cash_flow - (execute_restock_action product0 3 0 poorState).1.cash_flow = 0 ∨
      (0 < poorState.cash_flow - (execute_restock_action product0 3 0 poorState).1.cash_flow ∧
        poorState.cash_flow - (execute_restock_action product0 3 0 poorState).1.cash_flow ≤
          poorState.cash_flow)) ∧
    (execute_restock_action product0 3 0 poorState).1.pending_orders =
      (if 0 < ratTrunc (poorState.cash_flow / product0.cost_price) then
        poorState.pending_orders.set 0 ((poorState.pending_orders.getD 0 []) ++
          [⟨ratTrunc (poorState.cash_flow / product0.cost_price), product0.lead_time,
            (ratTrunc (poorState.cash_flow / product0.cost_price) : ℚ) * product0.cost_price⟩])
      else poorState.pending_orders) := by
  have h := inventory_cash_invariant create_product_catalog 5 [100, 80, 120, 60, 200]
    [0, 0, 0, 0, 0] 30000 (4/5) MarketCondition.normal SeasonType.spring [1, 1, 1, 1, 1]
    [c2Input] (by decide)
  exact ⟨getD_zero_nonneg h.1,
    h.2.1 product0 3 0 poorState (by norm_num [product0]),
    h.2.2 product0 3 0 poorState (by right; right; rfl)
      (by norm_num [poorState, product0, restock_quantity_of])⟩

end Env

namespace Env

theorem getD_eq_of_getElem? {α : Type} {l : List α} {i : ℕ} {d a : α}
    (h : l[i]? = some a) : l.getD i d = a := by
  rw [List.getD_eq_getElem?_getD, h]
  rfl

/-- The delivery-loop body, spelled out. -/
theorem delivery_step_def (s : BState) (i : ℕ) :
    delivery_step s i = { s with
      inventory_levels := s.inventory_levels.set i
        (process_orders (s.inventory_levels.getD i 0) (s.pending_orders.getD i [])).1
      pending_orders := s.pending_orders.set i
        (process_orders (s.inventory_levels.getD i 0) (s.pending_orders.getD i [])).2 } :=
  rfl

/-- One delivery iteration touches only its own index. -/
theorem delivery_step_ne (s : BState) (i j : ℕ) (hij : j ≠ i) :
    (delivery_step s j).inventory_levels[i]? = s.inventory_levels[i]? ∧
    (delivery_step s j).pending_orders[i]? = s.pending_orders[i]? := by
  unfold delivery_step
  exact ⟨List.getElem?_set_ne hij, List.getElem?_set_ne hij⟩

/-- The delivery fold leaves indices outside the folded range alone. -/
theorem deliveries_foldl_ne (i : ℕ) :
    ∀ (l : List ℕ) (s : BState), i ∉ l →
      (l.foldl delivery_step s).inventory_levels[i]? = s.inventory_levels[i]? ∧
      (l.foldl delivery_step s).pending_orders[i]? = s.pending_orders[i]? := by
  intro l
  induction l with
  | nil => intro s _; exact ⟨rfl, rfl⟩
  | cons j rest ih =>
    intro s hmem
    have hji : j ≠ i := fun hc => hmem (hc ▸ List.mem_cons_self _ _)
    have h1 := delivery_step_ne s i j hji
    have h2 := ih (delivery_step s j) (fun hc => hmem (List.mem_cons_of_mem _ hc))
    exact ⟨h2.1.trans h1.1, h2.2.trans h1.2⟩

/-- The delivery fold preserves the list lengths. -/
theorem deliveries_foldl_lengths :
    ∀ (l : List ℕ) (s : BState),
      (l.foldl delivery_step s).inventory_levels.length = s.inventory_levels.length ∧
      (l.foldl delivery_step s).pending_orders.length = s.pending_orders.length := by
  intro l
  induction l with
  | nil => intro s; exact ⟨rfl, rfl⟩
  | cons j rest ih =>
    intro s
    have h2 := ih (delivery_step s j)
    have h1 : (delivery_step s j).inventory_levels.length = s.inventory_levels.length ∧
        (delivery_step s j).pending_orders.length = s.pending_orders.length := by
      unfold delivery_step
      constructor <;> simp
    exact ⟨h2.1.trans h1.1, h2.2.trans h1.2⟩

theorem process_supplier_deliveries_lengths (n : ℕ) (s : BState) :
    (process_supplier_deliveries n s).inventory_levels.length = s.inventory_levels.length ∧
    (process_supplier_deliveries n s).pending_orders.length = s.pending_orders.length := by
  unfold process_supplier_deliveries
  exact deliveries_foldl_lengths (List.range n) s

/-- `_process_supplier_deliveries` computes, at every valid index, exactly
`process_orders` of that product's inventory and queue. -/
theorem process_supplier_deliveries_get (n i : ℕ) (s : BState) (hi : i < n)
    (h1 : i < s.inventory_levels.length) (h2 : i < s.pending_orders.length) :
    (process_supplier_deliveries n s).inventory_levels[i]? =
      some ((process_orders (s.inventory_levels.getD i 0) (s.pending_orders.getD i [])).1) ∧
    (process_supplier_deliveries n s).pending_orders[i]? =
      some ((process_orders (s.inventory_levels.getD i 0) (s.pending_orders.getD i [])).2) := by
  unfold process_supplier_deliveries
  induction n with
  | zero => omega
  | succ m ih =>
    rw [List.range_succ, List.foldl_append]
    simp only [List.foldl_cons, List.foldl_nil]
    by_cases him : i < m
    · have h := ih him
      have hne := delivery_step_ne ((List.range m).foldl delivery_step s) i m (by omega)
      exact ⟨hne.1.trans h.1, hne.2.trans h.2⟩
    · have him' : i = m := by omega
      subst him'
      have hun := deliveries_foldl_ne i (List.range i) s (by simp)
      have hlen := deliveries_foldl_lengths (List.range i) s
      have e1 : ((List.range i).foldl delivery_step s).inventory_levels.getD i 0 =
          s.inventory_levels.getD i 0 := by
        rw [List.getD_eq_getElem?_getD, List.getD_eq_getElem?_getD, hun.1]
      have e2 : ((List.range i).foldl delivery_step s).pending_orders.getD i [] =
          s.pending_orders.getD i [] := by
        rw [List.getD_eq_getElem?_getD, List.getD_eq_getElem?_getD, hun.2]
      rw [delivery_step_def]
      dsimp only
      constructor
      · rw [List.getElem?_set_self (by rw [hlen.1]; exact h1), e1, e2]
      · rw [List.getElem?_set_self (by rw [hlen.2]; exact h2), e1, e2]

/-- A restock action on another product leaves queue `i` (and the whole
inventory) alone. -/
theorem execute_restock_action_other (p : ProductInfo) (a j : ℕ) (t : BState) (i : ℕ)
    (hij : j ≠ i) :
    (execute_restock_action p a j t).1.pending_orders[i]? = t.pending_orders[i]? ∧
    (execute_restock_action p a j t).1.pending_orders.length = t.pending_orders.length ∧
    (execute_restock_action p a j t).1.inventory_levels = t.inventory_levels := by
  by_cases ha : a = 1 ∨ a = 2 ∨ a = 3
  · rw [execute_restock_action_eq p a j t ha]
    by_cases hq : 0 < (effective_restock p a t.cash_flow).1
    · rw [if_pos hq]
      dsimp only
      exact ⟨List.getElem?_set_ne hij, by simp, rfl⟩
    · rw [if_neg hq]
      exact ⟨rfl, rfl, rfl⟩
  · unfold execute_restock_action
    rw [if_neg ha]
    exact ⟨rfl, rfl, rfl⟩

/-- The restocking loop leaves queue `i` alone when product `i`'s action
code is 0, and never touches the inventory. -/
theorem execute_restocks_untouched (products : List ProductInfo) (acts : ℕ → ℕ)
    (s : BState) (i : ℕ) (hact : acts i = 0) :
    (execute_restocks products acts s).1.pending_orders[i]? = s.pending_orders[i]? ∧
    (execute_restocks products acts s).1.pending_orders.length = s.pending_orders.length ∧
    (execute_restocks products acts s).1.inventory_levels = s.inventory_levels := by
  unfold execute_restocks
  refine foldl_preserve (fun acc : BState × ℚ =>
      acc.1.pending_orders[i]? = s.pending_orders[i]? ∧
      acc.1.pending_orders.length = s.pending_orders.length ∧
      acc.1.inventory_levels = s.inventory_levels) _ (List.range products.length) (s, 0)
    ?_ ⟨rfl, rfl, rfl⟩
  intro acc j _ hacc
  dsimp only
  by_cases haj : 0 < acts j
  · rw [if_pos haj]
    have hji : j ≠ i := fun hc => by rw [hc, hact] at haj; exact lt_irrefl 0 haj
    have h := execute_restock_action_other (products.getD j default) (acts j) j acc.1 i hji
    exact ⟨h.1.trans hacc.1, h.2.1.trans hacc.2.1, h.2.2.trans hacc.2.2⟩
  · rw [if_neg haj]
    exact hacc

/-- Marketing actions touch neither the queues nor the inventory. -/
theorem execute_business_actions_fields (m : ℕ) (s : BState) :
    (execute_business_actions m s).pending_orders = s.pending_orders ∧
    (execute_business_actions m s).inventory_levels = s.inventory_levels := by
  unfold execute_business_actions
  split_ifs <;> exact ⟨rfl, rfl⟩

/-- A daily-operations iteration keeps the queues and the inventory
length. -/
theorem simulate_product_day_fields (products : List ProductInfo) (vars : ℕ → ℚ)
    (acc : DayAcc) (i : ℕ) :
    (simulate_product_day products vars acc i).s.pending_orders = acc.s.pending_orders ∧
    (simulate_product_day products vars acc i).s.inventory_levels.length =
      acc.s.inventory_levels.length := by
  unfold simulate_product_day
  exact ⟨rfl, by simp⟩

/-- `_simulate_daily_operations` keeps the queues and the inventory
length. -/
theorem simulate_daily_operations_fields (products : List ProductInfo) (vars : ℕ → ℚ)
    (s : BState) :
    (simulate_daily_operations products vars s).1.pending_orders = s.pending_orders ∧
    (simulate_daily_operations products vars s).1.inventory_levels.length =
      s.inventory_levels.length := by
  unfold simulate_daily_operations
  have h := foldl_preserve (fun acc : DayAcc =>
      acc.s.pending_orders = s.pending_orders ∧
      acc.s.inventory_levels.length = s.inventory_levels.length)
    (simulate_product_day products vars) (List.range products.length) ⟨s, 0, 0, 0, 0⟩
    (fun acc i _ hacc => ⟨(simulate_product_day_fields products vars acc i).1.trans hacc.1,
      (simulate_product_day_fields products vars acc i).2.trans hacc.2⟩) ⟨rfl, rfl⟩
  dsimp only
  split_ifs <;> exact ⟨h.1, h.2⟩

/-- `_update_business_state` keeps the queues and the inventory. -/
theorem update_business_state_fields (products : List ProductInfo) (daily : DailyResults)
    (s : BState) :
    (update_business_state products daily s).pending_orders = s.pending_orders ∧
    (update_business_state products daily s).inventory_levels = s.inventory_levels := by
  unfold update_business_state
  dsimp only
  split_ifs <;> exact ⟨rfl, rfl⟩

/-- Along a `step` with no restock on product `i`, queue `i` is exactly
the delivery-processed queue, and list lengths survive. -/
theorem step_pending_orders (products : List ProductInfo) (inp : StepInput) (s : BState)
    (i : ℕ) (hi : i < products.length)
    (h1 : i < s.inventory_levels.length) (h2 : i < s.pending_orders.length)
    (hact : inp.pActions i = 0) :
    (step products inp s).pending_orders[i]? =
      some ((process_orders (s.inventory_levels.getD i 0) (s.pending_orders.getD i [])).2) ∧
    (step products inp s).inventory_levels.length = s.inventory_levels.length ∧
    (step products inp s).pending_orders.length = s.pending_orders.length := by
  unfold step
  have hd := process_supplier_deliveries_get products.length i s hi h1 h2
  have hdlen := process_supplier_deliveries_lengths products.length s
  have hr := execute_restocks_untouched products inp.pActions
    (process_supplier_deliveries products.length s) i hact
  have hb := execute_business_actions_fields inp.marketing_action
    (execute_restocks products inp.pActions (process_supplier_deliveries products.length s)).1
  have hdy := simulate_daily_operations_fields products inp.variances
    (execute_business_actions inp.marketing_action
      (execute_restocks products inp.pActions (process_supplier_deliveries products.length s)).1)
  have hu := update_business_state_fields products
    (simulate_daily_operations products inp.variances
      (execute_business_actions inp.marketing_action
        (execute_restocks products inp.pActions (process_supplier_deliveries products.length s)).1)).2
    (simulate_daily_operations products inp.variances
      (execute_business_actions inp.marketing_action
        (execute_restocks products inp.pActions (process_supplier_deliveries products.length s)).1)).1
  refine ⟨?_, ?_, ?_⟩
  · rw [hu.1, hdy.1, hb.1, hr.1]
    exact hd.2
  · rw [hu.2, hdy.2, hb.2, hr.2.2]
    exact hdlen.1
  · rw [hu.1, hdy.1, hb.1, hr.2.1]
    exact hdlen.2

/-- A pending order with more than one day left is merely decremented. -/
theorem process_orders_single_keep (inv q d : ℤ) (c : ℚ) (hd : ¬ d - 1 ≤ 0) :
    process_orders inv [⟨q, d, c⟩] = (inv, [⟨q, d - 1, c⟩]) := by
  unfold process_orders
  simp only [List.foldl_cons, List.foldl_nil]
  rw [if_neg hd]
  rfl

/-- A pending order with at most one day left merges into the inventory. -/
theorem process_orders_single_arrive (inv q d : ℤ) (c : ℚ) (hd : d - 1 ≤ 0) :
    process_orders inv [⟨q, d, c⟩] = (inv + q, []) := by
  unfold process_orders
  simp only [List.foldl_cons, List.foldl_nil]
  rw [if_pos hd]

theorem runSteps_append (products : List ProductInfo) (l1 l2 : List StepInput) (s : BState) :
    runSteps products (l1 ++ l2) s = runSteps products l2 (runSteps products l1 s) := by
  unfold runSteps
  rw [List.foldl_append]

theorem runSteps_single (products : List ProductInfo) (inp : StepInput) (s : BState) :
    runSteps products [inp] s = step products inp s := rfl

/-- Trajectory lemma for C9: a 200-unit order with 7 days of lead time,
alone in queue `i`, survives `k ≤ 6` further steps (that do not restock
product `i`) with its remaining days reduced to `7 - k`, while the list
lengths persist. -/
theorem c9_traj (products : List ProductInfo) (p : ProductInfo) (i : ℕ)
    (hp : products[i]? = some p) :
    ∀ (k : ℕ) (inputs : List StepInput) (s : BState) (c : ℚ),
      (∀ inp ∈ inputs, inp.pActions i = 0) →
      k ≤ inputs.length → k ≤ 6 →
      s.pending_orders[i]? = some [⟨200, 7, c⟩] →
      s.inventory_levels.length = products.length →
      s.pending_orders.length = products.length →
      (runSteps products (inputs.take k) s).pending_orders[i]? =
        some [⟨200, 7 - (k : ℤ), c⟩] ∧
      (runSteps products (inputs.take k) s).inventory_levels.length = products.length ∧
      (runSteps products (inputs.take k) s).pending_orders.length = products.length := by
  have hip : i < products.length := (List.getElem?_eq_some.mp hp).1
  intro k
  induction k with
  | zero =>
    intro inputs s c _ _ _ hq hl1 hl2
    simp only [List.take_zero, runSteps, List.foldl_nil, Nat.cast_zero, sub_zero]
    exact ⟨hq, hl1, hl2⟩
  | succ m ih =>
    intro inputs s c hacts hlen hm hq hl1 hl2
    have hmlt : m < inputs.length := hlen
    have htake : inputs.take (m + 1) = inputs.take m ++ [inputs[m]] :=
      (List.take_concat_get' inputs m hmlt).symm
    have hmem : inputs[m] ∈ inputs := List.getElem_mem hmlt
    have ihm := ih inputs s c hacts (by omega) (by omega) hq hl1 hl2
    rw [htake, runSteps_append, runSteps_single]
    have hstep := step_pending_orders products (inputs[m])
      (runSteps products (inputs.take m) s) i hip
      (by rw [ihm.2.1]; exact hip) (by rw [ihm.2.2]; exact hip) (hacts _ hmem)
    have hgd : (runSteps products (inputs.take m) s).pending_orders.getD i [] =
        [⟨200, 7 - (m : ℤ), c⟩] := getD_eq_of_getElem? ihm.1
    have hkeep : ¬ (7 - (m : ℤ)) - 1 ≤ 0 := by omega
    refine ⟨?_, hstep.2.1.trans ihm.2.1, hstep.2.2.trans ihm.2.2⟩
    rw [hstep.1, hgd, process_orders_single_keep _ _ _ _ hkeep]
    have : (7 : ℤ) - (m : ℤ) - 1 = 7 - ((m + 1 : ℕ) : ℤ) := by push_cast; ring
    rw [this]

end Env

namespace Env

/-- C9: a tier-3 ("large", 200-unit) restock of a product with 7-day lead
time enqueues a 200-unit pending order with `days_remaining = 7` (cash
permitting), and for every run of the simulator from that point (with no
further restock action on that product), the order is still pending —
hence not yet merged into inventory — after each of the first 6
subsequent steps, counting down; during the 7th step the delivery phase,
which runs *before* demand is simulated, adds exactly those 200 units to
the product's inventory and removes the order from the queue. -/
theorem lead_time_delivery (products : List ProductInfo) (p : ProductInfo) (i : ℕ)
    (c : ℚ) (s : BState) (inputs : List StepInput)
    (hp : products[i]? = some p) (hlead : p.lead_time = 7)
    (hlen7 : inputs.length = 7)
    (hacts : ∀ inp ∈ inputs, inp.pActions i = 0)
    (hq : s.pending_orders[i]? = some [⟨200, 7, c⟩])
    (hl1 : s.inventory_levels.length = products.length)
    (hl2 : s.pending_orders.length = products.length) :
    (∀ t : BState, (200 : ℚ) * p.cost_price ≤ t.cash_flow →
      (execute_restock_action p 3 i t).1.pending_orders =
        t.pending_orders.set i ((t.pending_orders.getD i []) ++
          [⟨200, 7, 200 * p.cost_price⟩])) ∧
    (∀ k, k ≤ 6 → (runSteps products (inputs.take k) s).pending_orders[i]? =
      some [⟨200, 7 - (k : ℤ), c⟩]) ∧
    ((process_supplier_deliveries products.length
        (runSteps products (inputs.take 6) s)).inventory_levels.getD i 0 =
      (runSteps products (inputs.take 6) s).inventory_levels.getD i 0 + 200) ∧
    (runSteps products inputs s).pending_orders[i]? = some [] := by
  have hip : i < products.length := (List.getElem?_eq_some.mp hp).1
  have h6 := c9_traj products p i hp 6 inputs s c hacts (by omega) (by norm_num)
    hq hl1 hl2
  refine ⟨?_, ?_, ?_, ?_⟩
  · intro t hcash
    have h3 : (3 : ℕ) = 1 ∨ (3 : ℕ) = 2 ∨ (3 : ℕ) = 3 := by right; right; rfl
    rw [execute_restock_action_eq p 3 i t h3]
    have heff : effective_restock p 3 t.cash_flow = (200, 200 * p.cost_price) := by
      unfold effective_restock
      rw [if_neg (by norm_num [restock_quantity_of]; exact hcash)]
      norm_num [restock_quantity_of]
    rw [heff]
    dsimp only
    rw [if_pos (by norm_num : (0 : ℤ) < 200), hlead]
  · intro k hk
    exact (c9_traj products p i hp k inputs s c hacts (by omega) hk hq hl1 hl2).1
  · have hd := process_supplier_deliveries_get products.length i
      (runSteps products (inputs.take 6) s) hip
      (by rw [h6.2.1]; exact hip) (by rw [h6.2.2]; exact hip)
    have hgd : (runSteps products (inputs.take 6) s).pending_orders.getD i [] =
        [⟨200, 7 - ((6 : ℕ) : ℤ), c⟩] := getD_eq_of_getElem? h6.1
    have hinv := hd.1
    rw [hgd, process_orders_single_arrive _ _ _ _ (by norm_num)] at hinv
    exact getD_eq_of_getElem? hinv
  · have htake7 : inputs.take 7 = inputs.take 6 ++ [inputs[6]] :=
      (List.take_concat_get' inputs 6 (by omega)).symm
    have hfull : inputs.take 7 = inputs := by
      rw [← hlen7]
      exact List.take_length inputs
    have hmem : inputs[6] ∈ inputs := List.getElem_mem (by omega)
    have hrw : runSteps products inputs s =
        step products (inputs[6]) (runSteps products (inputs.take 6) s) := by
      conv_lhs => rw [← hfull]
      rw [htake7, runSteps_append, runSteps_single]
    rw [hrw]
    have hstep := step_pending_orders products (inputs[6])
      (runSteps products (inputs.take 6) s) i hip
      (by rw [h6.2.1]; exact hip) (by rw [h6.2.2]; exact hip) (hacts _ hmem)
    rw [hstep.1, getD_eq_of_getElem? h6.1,
      process_orders_single_arrive _ _ _ _ (by norm_num)]

end Env

namespace Env

/-- The post-action state of the C9 scenario: a 200-unit order with 7 days
remaining sits alone in product 0's queue. -/
def c9State : BState :=
  { inventory_levels := [100, 100, 100, 100, 100]
    days_since_restock := [0, 0, 0, 0, 0]
    cash_flow := 30000
    customer_satisfaction := 4/5
    market_condition := MarketCondition.normal
    season := SeasonType.spring
    demand_trends := [1, 1, 1, 1, 1]
    monthly_revenue := 0
    monthly_costs := 0
    inventory_turnover := 0
    pending_orders := [[⟨200, 7, 5000⟩], [], [], [], []]
    stockout_days := [0, 0, 0, 0, 0]
    total_profit := 0 }

/-- A step input taking no product action at all. -/
def quietInput : StepInput :=
  { pActions := fun _ => 0
    marketing_action := 0
    variances := fun _ => 1 }

/-- Witness for C9 on the real catalog: after 3 quiet days the order is
still pending with 4 days left, and after 7 quiet days it has left the
queue. -/
theorem lead_time_delivery_witness :
    (runSteps create_product_catalog ((List.replicate 7 quietInput).take 3)
      c9State).pending_orders[0]? = some [⟨200, 4, 5000⟩] ∧
    (runSteps create_product_catalog (List.replicate 7 quietInput)
      c9State).pending_orders[0]? = some [] := by
  have h := lead_time_delivery create_product_catalog product0 0 5000 c9State
    (List.replicate 7 quietInput) rfl rfl (by simp)
    (by intro inp hinp; rw [List.eq_of_mem_replicate hinp]; rfl)
    rfl rfl rfl
  refine ⟨?_, h.2.2.2⟩
  have h3 := h.2.1 3 (by norm_num)
  norm_num at h3
  exact h3

end Env
